import Mathlib

/-!
# Verification of the price-data ingestion/deduplication pipeline

Shallow embedding of the core of the `price-data` repository:

* `crud.py` — `PriceDataCRUD.create`, `PriceDataCRUD.update`,
  `PriceDataCRUD.exists_by_unique_key`, `PriceDataCRUD.exists_batch_by_unique_key`,
  `ScrapingLogCRUD.create_log` and the module-level `bulk_create_or_update`;
* `scraper.py` — `XinfadiScraper._make_request` (bounded retry) and
  `XinfadiScraper.scrape_all_pages` (pagination driver);
* `data_manager.py` — `DataManager.sync_data`, `sync_by_product` (orchestrator);
* `config.py` — the retry constants.

Modelling conventions, chosen once and used throughout:

* Upstream records are Python dicts delivered by the JSON API; every business
  field is always present, possibly `null`.  A missing/null value is `Option.none`.
* Numeric price fields are modelled as `Option Int` (the Python code coerces
  them with `float(...)`; no claim depends on fractional values or on the
  textual repr of floats, so integers stand in for floats, and the `float`
  coercion is the identity on present values).  Python truthiness is modelled
  exactly: `0`, `""` and `None` are falsy.
* `datetime.strptime(s, "%Y-%m-%d %H:%M:%S")` is modelled by `strptimeYmdHMS`
  following CPython's `_strptime` regexes (`%Y` = exactly four digits, `%m`,
  `%d`, `%H`, `%M`, `%S` = one or two digits with the usual bounded
  alternations) plus the calendar validity check done by the `datetime`
  constructor; `strftime` of the same format is `strftimeYmdHMS`.
* The SQL store is a list of rows.  SQLAlchemy translates `col == None` to
  `col IS NULL`, so a filter condition `col == v` is exactly `Option`
  equality between the stored value and the query value.  SQLite treats
  `NULL`s as pairwise distinct inside `UNIQUE` constraints, and raises on a
  duplicated primary key; both are modelled in `create`/`update` commits.
* Exceptions are `Except` values; `db.rollback()` is a no-op on the model
  state because every successful write in this code path commits immediately.
* Wall-clock durations, log messages and the rate limiter are not modelled
  (they carry no information any claim depends on); sleeps are recorded as
  data so the retry claims can count them.
-/

/-- A parsed `datetime` value (what `datetime.strptime` returns). -/
structure Dt where
  year : Nat
  month : Nat
  day : Nat
  hour : Nat
  minute : Nat
  second : Nat
deriving DecidableEq, Repr

/-- Is `c` a decimal digit? -/
def isDigit (c : Char) : Bool := '0' ≤ c ∧ c ≤ '9'

/-- Numeric value of a digit character. -/
def digitVal (c : Char) : Nat := c.toNat - '0'.toNat

/-- CPython `_strptime` field `%m`: regex `(1[0-2]|0[1-9]|[1-9])`, greedy. -/
def parseMonth : List Char → Option (Nat × List Char)
  | '1' :: c :: rest =>
      if '0' ≤ c ∧ c ≤ '2' then some (10 + digitVal c, rest) else some (1, c :: rest)
  | '0' :: c :: rest =>
      if '1' ≤ c ∧ c ≤ '9' then some (digitVal c, rest) else none
  | c :: rest => if '1' ≤ c ∧ c ≤ '9' then some (digitVal c, rest) else none
  | [] => none

/-- CPython `_strptime` field `%d`: regex `(3[01]|[12]\d|0[1-9]|[1-9])`, greedy. -/
def parseDay : List Char → Option (Nat × List Char)
  | '3' :: c :: rest =>
      if '0' ≤ c ∧ c ≤ '1' then some (30 + digitVal c, rest) else some (3, c :: rest)
  | '1' :: c :: rest =>
      if isDigit c then some (10 + digitVal c, rest) else some (1, c :: rest)
  | '2' :: c :: rest =>
      if isDigit c then some (20 + digitVal c, rest) else some (2, c :: rest)
  | '0' :: c :: rest =>
      if '1' ≤ c ∧ c ≤ '9' then some (digitVal c, rest) else none
  | c :: rest => if '1' ≤ c ∧ c ≤ '9' then some (digitVal c, rest) else none
  | [] => none

/-- CPython `_strptime` field `%H`: regex `(2[0-3]|[0-1]\d|\d)`, greedy. -/
def parseHour : List Char → Option (Nat × List Char)
  | '2' :: c :: rest =>
      if '0' ≤ c ∧ c ≤ '3' then some (20 + digitVal c, rest) else some (2, c :: rest)
  | '0' :: c :: rest =>
      if isDigit c then some (digitVal c, rest) else some (0, c :: rest)
  | '1' :: c :: rest =>
      if isDigit c then some (10 + digitVal c, rest) else some (1, c :: rest)
  | c :: rest => if isDigit c then some (digitVal c, rest) else none
  | [] => none

/-- CPython `_strptime` fields `%M`/`%S`: regex `([0-5]\d|\d)`, greedy. -/
def parseMinSec : List Char → Option (Nat × List Char)
  | c :: c' :: rest =>
      if '0' ≤ c ∧ c ≤ '5' ∧ isDigit c' then some (digitVal c * 10 + digitVal c', rest)
      else if isDigit c then some (digitVal c, c' :: rest)
      else none
  | [c] => if isDigit c then some (digitVal c, []) else none
  | [] => none

/-- CPython `_strptime` field `%Y`: regex `(\d\d\d\d)`, exactly four digits. -/
def parseYear : List Char → Option (Nat × List Char)
  | a :: b :: c :: d :: rest =>
      if isDigit a ∧ isDigit b ∧ isDigit c ∧ isDigit d then
        some (digitVal a * 1000 + digitVal b * 100 + digitVal c * 10 + digitVal d, rest)
      else none
  | _ => none

/-- Gregorian leap-year rule used by `datetime`. -/
def isLeap (y : Nat) : Bool := y % 4 == 0 ∧ (y % 100 != 0 ∨ y % 400 == 0)

/-- Days in a month, as validated by the `datetime` constructor. -/
def daysInMonth (y m : Nat) : Nat :=
  if m == 2 then (if isLeap y then 29 else 28)
  else if m == 4 ∨ m == 6 ∨ m == 9 ∨ m == 11 then 30
  else 31

/-- Expect a literal character. -/
def parseLit (c : Char) : List Char → Option (List Char)
  | c' :: rest => if c == c' then some rest else none
  | [] => none

/-- `datetime.strptime(s, "%Y-%m-%d %H:%M:%S")`: `none` models the
`ValueError` CPython raises on a format mismatch, leftover input, or an
out-of-range calendar value. -/
def strptimeYmdHMS (s : String) : Option Dt := do
  let cs := s.toList
  let (y, cs) ← parseYear cs
  let cs ← parseLit '-' cs
  let (mo, cs) ← parseMonth cs
  let cs ← parseLit '-' cs
  let (d, cs) ← parseDay cs
  let cs ← parseLit ' ' cs
  let (h, cs) ← parseHour cs
  let cs ← parseLit ':' cs
  let (mi, cs) ← parseMinSec cs
  let cs ← parseLit ':' cs
  let (sec, cs) ← parseMinSec cs
  if cs.isEmpty ∧ 1 ≤ y ∧ d ≤ daysInMonth y mo then
    some ⟨y, mo, d, h, mi, sec⟩
  else none

/-- Zero-pad a numeral to two digits (what `strftime` does for
`%m %d %H %M %S`). -/
def pad2 (n : Nat) : String := if n < 10 then "0" ++ toString n else toString n

/-- `dt.strftime("%Y-%m-%d %H:%M:%S")` (glibc prints `%Y` unpadded). -/
def strftimeYmdHMS (t : Dt) : String :=
  toString t.year ++ "-" ++ pad2 t.month ++ "-" ++ pad2 t.day ++ " " ++
    pad2 t.hour ++ ":" ++ pad2 t.minute ++ ":" ++ pad2 t.second

/-- An upstream price record: the Python dict shipped in the API's `list`
field, restricted to the fields the deduplication core ever reads (the
provenance fields `userIdCreate`, `gmtCreate`, … are stored verbatim by
`create` and ignored by every key computation, lookup and claim, so they are
elided).  Every field is present in the dict, possibly `null` (`none`). -/
structure RawRecord where
  id : Option Nat
  prodName : Option String
  prodCatid : Option Int
  prodCat : Option String
  prodPcatid : Option Int
  prodPcat : Option String
  lowPrice : Option Int
  highPrice : Option Int
  avgPrice : Option Int
  place : Option String
  specInfo : Option String
  unitInfo : Option String
  pubDate : Option String
  status : Option Int
deriving DecidableEq, Repr

/-- A stored `price_data` row (`models.PriceData`), business fields only;
`created_at`/`updated_at` bookkeeping timestamps carry no claim-relevant
information and are elided. -/
structure Row where
  id : Nat
  prod_name : Option String
  prod_catid : Option Int
  prod_cat : Option String
  prod_pcatid : Option Int
  prod_pcat : Option String
  low_price : Option Int
  high_price : Option Int
  avg_price : Option Int
  place : Option String
  spec_info : Option String
  unit_info : Option String
  pub_date : Option Dt
  status : Option Int
deriving DecidableEq, Repr

/-- One `scraping_logs` row (`models.ScrapingLog`), as written by
`ScrapingLogCRUD.create_log`. -/
structure LogEntry where
  total_records : Nat
  new_records : Nat
  updated_records : Nat
  status : String
  error_message : Option String
deriving DecidableEq, Repr

/-- The SQLite database: the `price_data` table in rowid order plus the
`scraping_logs` table. -/
structure DB where
  rows : List Row
  logs : List LogEntry
deriving DecidableEq, Repr

/-- Python truthiness of an optional string (`None` and `""` are falsy). -/
def strTruthy : Option String → Bool
  | none => false
  | some s => s ≠ ""

/-- Python truthiness of an optional number (`None` and `0` are falsy). -/
def intTruthy : Option Int → Bool
  | none => false
  | some n => n ≠ 0

/-- Python truthiness of an optional natural (used for `days_back` and
`max_pages`). -/
def natTruthy : Option Nat → Bool
  | none => false
  | some n => n ≠ 0

/-- Python `x or ''` on an optional string: `None` and `""` normalize to `""`. -/
def normStr : Option String → String
  | none => ""
  | some s => s

/-- Python `str(x)` inside an f-string for an optional string (`None` prints
as `"None"`). -/
def fmtOptStr : Option String → String
  | none => "None"
  | some s => s

/-- Python `str(x)` inside an f-string for an optional integer. -/
def fmtOptInt : Option Int → String
  | none => "None"
  | some n => toString n

/-- `crud.py` lines 15-21: `low_price`/`high_price`/`avg_price` are set to
`float(x)` only when the raw value is truthy, so a `0` (falsy) price is
stored as SQL `NULL`, exactly like a missing one. -/
def coercePrice (v : Option Int) : Option Int :=
  match v with
  | some n => if n == 0 then none else some n
  | none => none

/-- `record.get('pubDate')` parsed, when present (the upstream value is
always textual). -/
def pubDateParsed (r : RawRecord) : Option Dt :=
  match r.pubDate with
  | some s => strptimeYmdHMS s
  | none => none

/-- The filter of `exists_by_unique_key` / one disjunct of
`exists_batch_by_unique_key` (`crud.py` lines 162-178 and 223-239): 13
`col == value` conditions where `place`/`spec_info` are first normalized by
`or ''` and `pubDate` has been parsed to `pd`.  SQLAlchemy renders
`col == None` as `col IS NULL`, so each condition is plain `Option`
equality between the stored value and the query value. -/
def matchesRecord (pd : Option Dt) (r : RawRecord) (row : Row) : Bool :=
  row.prod_name == r.prodName ∧
  row.prod_catid == r.prodCatid ∧
  row.prod_cat == r.prodCat ∧
  row.prod_pcatid == r.prodPcatid ∧
  row.prod_pcat == r.prodPcat ∧
  row.low_price == r.lowPrice ∧
  row.high_price == r.highPrice ∧
  row.avg_price == r.avgPrice ∧
  row.place == some (normStr r.place) ∧
  row.spec_info == some (normStr r.specInfo) ∧
  row.unit_info == r.unitInfo ∧
  row.pub_date == pd ∧
  row.status == r.status

/-- The 13-field unique key built from a raw record in
`bulk_create_or_update` (`crud.py` line 626) and in
`exists_batch_by_unique_key` (line 220): an f-string joining the fields with
`|`, with `place`/`spec_info` normalized and `date_str` being the raw
`pubDate` text when the input was textual. -/
def buildKey (r : RawRecord) (dateStr : String) : String :=
  fmtOptStr r.prodName ++ "|" ++ fmtOptInt r.prodCatid ++ "|" ++
    fmtOptStr r.prodCat ++ "|" ++ fmtOptInt r.prodPcatid ++ "|" ++
    fmtOptStr r.prodPcat ++ "|" ++ fmtOptInt r.lowPrice ++ "|" ++
    fmtOptInt r.highPrice ++ "|" ++ fmtOptInt r.avgPrice ++ "|" ++
    normStr r.place ++ "|" ++ normStr r.specInfo ++ "|" ++
    fmtOptStr r.unitInfo ++ "|" ++ dateStr ++ "|" ++ fmtOptInt r.status

/-- The unique key rebuilt from a stored row in `exists_batch_by_unique_key`
(`crud.py` lines 251-253): same f-string, but over the stored (raw,
un-normalized) column values, with the date re-rendered by `strftime` (empty
when `NULL`). -/
def dbKey (row : Row) : String :=
  fmtOptStr row.prod_name ++ "|" ++ fmtOptInt row.prod_catid ++ "|" ++
    fmtOptStr row.prod_cat ++ "|" ++ fmtOptInt row.prod_pcatid ++ "|" ++
    fmtOptStr row.prod_pcat ++ "|" ++ fmtOptInt row.low_price ++ "|" ++
    fmtOptInt row.high_price ++ "|" ++ fmtOptInt row.avg_price ++ "|" ++
    fmtOptStr row.place ++ "|" ++ fmtOptStr row.spec_info ++ "|" ++
    fmtOptStr row.unit_info ++ "|" ++
    (match row.pub_date with | some t => strftimeYmdHMS t | none => "") ++ "|" ++
    fmtOptInt row.status

/-- SQLite rowid auto-assignment: one more than the largest present id. -/
def freshId (db : DB) : Nat :=
  (db.rows.map Row.id).foldr max 0 + 1

/-- SQLite `UNIQUE` conflict between two rows over the 13 business columns
of `uq_all_business_fields`: a conflict needs every column pair non-NULL and
equal, because SQLite treats `NULL` as distinct from everything inside a
unique index. -/
def uniqueConflict (a b : Row) : Bool :=
  a.prod_name.isSome ∧ a.prod_name == b.prod_name ∧
  a.prod_catid.isSome ∧ a.prod_catid == b.prod_catid ∧
  a.prod_cat.isSome ∧ a.prod_cat == b.prod_cat ∧
  a.prod_pcatid.isSome ∧ a.prod_pcatid == b.prod_pcatid ∧
  a.prod_pcat.isSome ∧ a.prod_pcat == b.prod_pcat ∧
  a.low_price.isSome ∧ a.low_price == b.low_price ∧
  a.high_price.isSome ∧ a.high_price == b.high_price ∧
  a.avg_price.isSome ∧ a.avg_price == b.avg_price ∧
  a.place.isSome ∧ a.place == b.place ∧
  a.spec_info.isSome ∧ a.spec_info == b.spec_info ∧
  a.unit_info.isSome ∧ a.unit_info == b.unit_info ∧
  a.pub_date.isSome ∧ a.pub_date == b.pub_date ∧
  a.status.isSome ∧ a.status == b.status

/-- Association-list lookup for the Python dicts `existing_records` and
`processed_in_batch`. -/
def assocFind {α : Type} (m : List (String × α)) (k : String) : Option α :=
  (m.find? (fun p => p.1 == k)).map (fun p => p.2)

/-- Python dict insertion: overwrite the binding when the key is present,
append it otherwise. -/
def assocInsert {α : Type} (m : List (String × α)) (k : String) (v : α) :
    List (String × α) :=
  if m.any (fun p => p.1 == k) then
    m.map (fun p => if p.1 == k then (k, v) else p)
  else m ++ [(k, v)]

/-- `PriceDataCRUD.exists_by_unique_key` (`crud.py` lines 141-178): parse the
textual `pubDate` (raising on a bad date), then return the first stored row
matching all 13 normalized business-field conditions. -/
def existsByUniqueKey (db : DB) (r : RawRecord) : Except String (Option Row) :=
  match r.pubDate with
  | some s =>
      match strptimeYmdHMS s with
      | some d => .ok (db.rows.find? (matchesRecord (some d) r))
      | none => .error "ValueError"
  | none => .ok (db.rows.find? (matchesRecord none r))

/-- Step 1 of `exists_batch_by_unique_key` (`crud.py` lines 194-239): for
every record with a truthy product name and publish date, parse the date
(raising on a bad one) and keep the pair for the OR-of-ANDs filter. -/
def collectConds : List RawRecord → Except String (List (Dt × RawRecord))
  | [] => pure []
  | r :: rest =>
      if strTruthy r.prodName ∧ strTruthy r.pubDate then
        match pubDateParsed r with
        | some d => do
            let rest' ← collectConds rest
            pure ((d, r) :: rest')
        | none => throw "ValueError"
      else collectConds rest

/-- Steps 2-3 of `exists_batch_by_unique_key` (`crud.py` lines 244-256):
run the OR-of-ANDs existence query and key the resulting rows by the
re-rendered `dbKey` (later rows with an equal key overwrite earlier ones,
as in the Python dict). -/
def existsBatchMap (db : DB) (conds : List (Dt × RawRecord)) :
    List (String × Row) :=
  (db.rows.filter (fun row =>
    conds.any (fun c => matchesRecord (some c.1) c.2 row))).foldl
    (fun m row => assocInsert m (dbKey row) row) []

/-- `PriceDataCRUD.exists_batch_by_unique_key` proper (`crud.py` lines
181-256): empty condition lists (empty batch or no keyed record) return the
empty mapping without querying. -/
def existsBatchByUniqueKey (db : DB) (records : List RawRecord) :
    Except String (List (String × Row)) :=
  match collectConds records with
  | .error e => .error e
  | .ok conds => if conds.isEmpty then .ok [] else .ok (existsBatchMap db conds)

/-- `PriceDataCRUD.create` (`crud.py` lines 11-77): coerce truthy prices,
parse a truthy textual `pubDate` (raising on failure), consult the
`exists_by_unique_key` dedup guard when both product name and publish date
are truthy, and otherwise insert one new row.  The commit enforces the
primary key and the `uq_all_business_fields` unique constraint (SQLite
semantics: `NULL`s never conflict). -/
def createPubDate (r : RawRecord) : Except String (Option Dt) :=
  match r.pubDate with
  | some s =>
      if s ≠ "" then
        match strptimeYmdHMS s with
        | some d => .ok (some d)
        | none => .error "ValueError"
      else .ok none
  | none => .ok none

/-- The row `create` builds from `db_data` (`crud.py` lines 33-54, 66):
prices coerced by `coercePrice`, the id taken from the upstream dict or
auto-assigned by SQLite. -/
def newRowFor (db : DB) (r : RawRecord) (pd : Option Dt) : Row :=
  { id := r.id.getD (freshId db)
    prod_name := r.prodName
    prod_catid := r.prodCatid
    prod_cat := r.prodCat
    prod_pcatid := r.prodPcatid
    prod_pcat := r.prodPcat
    low_price := coercePrice r.lowPrice
    high_price := coercePrice r.highPrice
    avg_price := coercePrice r.avgPrice
    place := r.place
    spec_info := r.specInfo
    unit_info := r.unitInfo
    pub_date := pd
    status := r.status }

/-- The INSERT commit: `prod_name` is `NOT NULL`, the primary key must be
new, and a `uq_all_business_fields` conflict (all 13 columns non-NULL
pairwise equal, per SQLite) raises `IntegrityError`. -/
def insertRow (db : DB) (row : Row) : Except String DB :=
  if row.prod_name = none then .error "IntegrityError"
  else if db.rows.any (fun o => o.id == row.id ∨ uniqueConflict row o) then
    .error "IntegrityError"
  else .ok { db with rows := db.rows ++ [row] }

/-- `PriceDataCRUD.create` proper: parse, consult the dedup guard when both
product name and publish date are truthy (skipping it otherwise), then
insert. -/
def create (db : DB) (r : RawRecord) : Except String (DB × Row) :=
  match createPubDate r with
  | .error e => .error e
  | .ok pd =>
      match (if strTruthy r.prodName ∧ strTruthy r.pubDate then
              existsByUniqueKey db r
             else .ok none) with
      | .error e => .error e
      | .ok (some row) => .ok (db, row)
      | .ok none =>
          match insertRow db (newRowFor db r pd) with
          | .error e => .error e
          | .ok db' => .ok (db', newRowFor db r pd)

/-- The field loop of `PriceDataCRUD.update` (`crud.py` lines 279-290)
applied to one row: only the dict keys that map (via `field_mapping`) to an
actual column attribute are applied — `prodName`, `prodPcatid`, `pubDate`,
`lowPrice`, `highPrice`, `avgPrice`, plus `place`, `status` and `id`, whose
dict names already equal the attribute names; `prodCatid`, `prodCat`,
`prodPcat`, `specInfo` and `unitInfo` fail the `hasattr` test and are
silently skipped.  `float(None)` raises `TypeError`; a bad textual date
raises `ValueError`.  (`id` is applied only when the upstream dict carries
it, as API records always do; the repo's own tests omit it.) -/
def updatedRow (row : Row) (r : RawRecord) (pd : Option Dt) : Row :=
  { row with
    id := r.id.getD row.id
    prod_name := r.prodName
    prod_pcatid := r.prodPcatid
    low_price := r.lowPrice
    high_price := r.highPrice
    avg_price := r.avgPrice
    place := r.place
    pub_date := pd
    status := r.status }

/-- The coercion gate of the field loop: `float(None)` raises `TypeError`
for any absent price, and a bad textual date raises `ValueError`; on
success the mapped fields are written onto the row. -/
def applyUpdate (row : Row) (r : RawRecord) : Except String Row :=
  if r.lowPrice.isSome ∧ r.highPrice.isSome ∧ r.avgPrice.isSome then
    match r.pubDate with
    | some s =>
        match strptimeYmdHMS s with
        | some d => .ok (updatedRow row r (some d))
        | none => .error "ValueError"
    | none => .ok (updatedRow row r none)
  else .error "TypeError"

/-- The UPDATE commit of `PriceDataCRUD.update` (`crud.py` lines 292-294):
`prod_name NOT NULL`, primary-key uniqueness and the business-field unique
constraint are enforced against the *other* rows; any failure rolls the
row back unchanged. -/
def commitUpdate (db : DB) (rid : Nat) (row' : Row) : Except String DB :=
  if row'.prod_name = none then .error "IntegrityError"
  else if db.rows.any (fun o =>
      o.id ≠ rid ∧ (o.id == row'.id ∨ uniqueConflict row' o)) then
    .error "IntegrityError"
  else
    .ok { db with
      rows := db.rows.map (fun o => if o.id == rid then row' else o) }

/-- `PriceDataCRUD.update` proper: find by id (`None`, no error, when
absent), apply the mapped fields, commit. -/
def update (db : DB) (rid : Nat) (r : RawRecord) :
    Except String (DB × Option Row) :=
  match db.rows.find? (fun o => o.id == rid) with
  | none => .ok (db, none)
  | some row =>
      match applyUpdate row r with
      | .error e => .error e
      | .ok row' =>
          match commitUpdate db rid row' with
          | .error e => .error e
          | .ok db' => .ok (db', some row')

/-- The per-record loop of `bulk_create_or_update` (`crud.py` lines
592-660): skip records lacking a truthy product name or publish date, build
the normalized 13-field key, resolve first against the batch-local
`processed_in_batch` dict, then against the pre-fetched `existing_records`
map, then create; storage failures of a single create/update are caught and
that record is skipped.  A `strptime` failure here propagates (it is not in
any per-record `try`), though it is unreachable once the batch pre-check
has parsed the same strings. -/
def bulkResolve (existing : List (String × Row)) (db : DB)
    (processed : List (String × Nat)) (created updated : Nat) (r : RawRecord)
    (key : String) : DB × List (String × Nat) × Nat × Nat :=
  match assocFind processed key with
  | some eid =>
      match update db eid r with
      | .ok (db', _) => (db', processed, created, updated + 1)
      | .error _ => (db, processed, created, updated)
  | none =>
      match assocFind existing key with
      | some row =>
          match update db row.id r with
          | .ok (db', _) => (db', processed ++ [(key, row.id)], created, updated + 1)
          | .error _ => (db, processed, created, updated)
      | none =>
          match create db r with
          | .ok (db', newRow) =>
              (db', processed ++ [(key, newRow.id)], created + 1, updated)
          | .error _ => (db, processed, created, updated)

/-- The loop proper, threading the session, the batch-local dict and the
two counters through `bulkResolve` record by record. -/
def bulkLoop (existing : List (String × Row)) :
    List RawRecord → DB → List (String × Nat) → Nat → Nat →
      Except (DB × String) (DB × Nat × Nat)
  | [], db, _, created, updated => .ok (db, created, updated)
  | r :: rest, db, processed, created, updated =>
      if strTruthy r.prodName ∧ strTruthy r.pubDate then
        match r.pubDate with
        | some s =>
            match strptimeYmdHMS s with
            | none => .error (db, "ValueError")
            | some _ =>
                match bulkResolve existing db processed created updated r
                    (buildKey r s) with
                | (db', processed', created', updated') =>
                    bulkLoop existing rest db' processed' created' updated'
        | none => bulkLoop existing rest db processed created updated
      else bulkLoop existing rest db processed created updated

/-- `bulk_create_or_update` (`crud.py` lines 564-668): empty batches return
`(0, 0)`; otherwise the batch existence pre-check runs first and any
exception escaping it (or the loop) is re-raised after a rollback — the
rollback is a no-op on data because every successful write inside the loop
has already committed. -/
def bulkCreateOrUpdate (db : DB) (records : List RawRecord) :
    Except (DB × String) (DB × Nat × Nat) :=
  if records.isEmpty then pure (db, 0, 0)
  else
    match existsBatchByUniqueKey db records with
    | .error e => throw (db, e)
    | .ok existing => bulkLoop existing records db [] 0 0

namespace Config

/-- `config.py`: `RETRY_MAX_ATTEMPTS = 5`. -/
def RETRY_MAX_ATTEMPTS : Nat := 5

/-- `config.py`: `RETRY_INTERVAL = 10` seconds. -/
def RETRY_INTERVAL : Nat := 10

end Config

/-- Outcome of one HTTP attempt inside `_make_request`, as discriminated by
its `except` clauses: a parsed JSON payload, a transport-level error
(`ConnectionError`/`Timeout`/`HTTPError`, including non-2xx via
`raise_for_status`), a `json.JSONDecodeError`, or any other exception. -/
inductive AttemptOutcome (ρ : Type)
  | ok (r : ρ)
  | netErr
  | jsonErr
  | otherErr
deriving DecidableEq, Repr

/-- The `for attempt in range(RETRY_MAX_ATTEMPTS)` loop of
`XinfadiScraper._make_request` (`scraper.py` lines 33-76), driven by an
oracle giving the outcome of each attempt.  Returns the result together
with the number of attempts made and the list of `time.sleep` intervals
performed between attempts.  Transport errors retry unless this was the
last attempt; JSON-decode and unknown errors return `None` at once; the
fall-through `return None` after the loop is the `0` fuel case. -/
def retryGo (f : Nat → AttemptOutcome ρ) :
    Nat → Nat → List Nat → Option ρ × Nat × List Nat
  | 0, made, sleeps => (none, made, sleeps.reverse)
  | remaining + 1, made, sleeps =>
      match f made with
      | .ok r => (some r, made + 1, sleeps.reverse)
      | .netErr =>
          if remaining == 0 then (none, made + 1, sleeps.reverse)
          else retryGo f remaining (made + 1) (Config.RETRY_INTERVAL :: sleeps)
      | .jsonErr => (none, made + 1, sleeps.reverse)
      | .otherErr => (none, made + 1, sleeps.reverse)

/-- `_make_request` entry point: run the attempt loop with the configured
attempt budget. -/
def makeRequest (f : Nat → AttemptOutcome ρ) : Option ρ × Nat × List Nat :=
  retryGo f Config.RETRY_MAX_ATTEMPTS 0 []

/-- One page of the upstream JSON response: `{"count": …, "list": […]}`. -/
structure PageRes (α : Type) where
  count : Nat
  list : List α
deriving DecidableEq, Repr

/-- Result of a `scrape_all_pages` walk: the page numbers passed to
`scrape_page`, the function's return value (`[]` in callback mode), the
callback's threaded state, `total_saved`, and the `total_count` /
`total_pages` figures the code computes from the first response (used only
for progress logging, never for termination). -/
structure ScrapeResult (α σ : Type) where
  requested : List Nat
  records : List α
  state : σ
  totalSaved : Nat
  totalCount : Option Nat
  totalPages : Nat

/-- The two `break` conditions checked after a delivered page
(`scraper.py` line 190: `len(page_records) < limit`, and line 195:
`max_pages and current_page >= max_pages`), combined — they produce the
identical loop exit.  Note the `total_pages` figure plays no part here. -/
def pageStops (limit : Nat) (maxPages : Option Nat) (pageLen cur : Nat) : Bool :=
  decide (pageLen < limit) ||
    (match maxPages with
     | some mp => decide (mp ≠ 0 ∧ mp ≤ cur)
     | none => false)

/-- The `while True` loop of `XinfadiScraper.scrape_all_pages`
(`scraper.py` lines 145-203), driven by a fetch oracle `fetch` mapping a
page number to `scrape_page`'s result (`None` = `_make_request` failure;
the query filters are folded into the oracle, so `scrape_by_date_range`
and `scrape_by_product` are walks of the same loop).  The save callback is
a state transformer returning the saved count, or `none` when it raised —
the loop catches callback exceptions and continues with the next page.
`fuel` bounds the recursion; it is a model artifact (the Python loop can
walk unboundedly many pages) and every theorem supplies enough of it.
Python would raise `ZeroDivisionError` computing `total_pages` with
`limit = 0`; all claims assume a positive page size. -/
def scrapeGo (fetch : Nat → Option (PageRes α)) (limit : Nat)
    (maxPages : Option Nat) (cb : Option (σ → List α → σ × Option Nat)) :
    Nat → Nat → σ → List Nat → List α → Nat → Option Nat → Nat →
      ScrapeResult α σ
  | 0, _, st, req, acc, saved, tc, tp =>
      ⟨req.reverse, if cb.isSome then [] else acc.reverse, st, saved, tc, tp⟩
  | fuel + 1, cur, st, req, acc, saved, tc, tp =>
      let req := cur :: req
      match fetch cur with
      | none => ⟨req.reverse, if cb.isSome then [] else acc.reverse, st, saved, tc, tp⟩
      | some page =>
          let tcp : Nat × Nat :=
            match tc with
            | none =>
                let t := page.count
                let p := (t + limit - 1) / limit
                (t, match maxPages with
                    | some mp => if mp ≠ 0 ∧ p > mp then mp else p
                    | none => p)
            | some t => (t, tp)
          let tc' := some tcp.1
          let tp' := tcp.2
          let pageLen := page.list.length
          let next : σ × List α × Nat :=
            match cb with
            | some f =>
                if pageLen ≠ 0 then
                  match f st page.list with
                  | (st', some n) => (st', acc, saved + n)
                  | (st', none) => (st', acc, saved)
                else (st, acc, saved)
            | none => (st, page.list.reverse ++ acc, saved)
          let st' := next.1
          let acc' := next.2.1
          let saved' := next.2.2
          if pageStops limit maxPages pageLen cur then
            ⟨req.reverse, if cb.isSome then [] else acc'.reverse, st', saved', tc', tp'⟩
          else
            scrapeGo fetch limit maxPages cb fuel (cur + 1) st' req acc' saved' tc' tp'

/-- `scrape_all_pages` entry point: pages start at 1 with empty
accumulators. -/
def scrapeAllPages (fetch : Nat → Option (PageRes α)) (limit : Nat)
    (maxPages : Option Nat) (cb : Option (σ → List α → σ × Option Nat))
    (st : σ) (fuel : Nat) : ScrapeResult α σ :=
  scrapeGo fetch limit maxPages cb fuel 1 st [] [] 0 none 0

/-- The summary dict returned by `DataManager.sync_data`
(`data_manager.py`): status plus the three counters.  The free-text
`message` and the wall-clock `duration` are elided (no claim depends on
them and the duration is real time). -/
structure Summary where
  status : String
  total_records : Nat
  new_records : Nat
  updated_records : Nat
deriving DecidableEq, Repr

/-- Append one `scraping_logs` row. -/
def appendLog (db : DB) (e : LogEntry) : DB :=
  { db with logs := db.logs ++ [e] }

/-- `ScrapingLogCRUD.create_log` (`crud.py` lines 517-544): insert-commit an
audit row, re-raising on a storage failure.  The `auditOk` flag is the
storage-failure oracle for the audit table (the claims quantify over audit
writes failing or succeeding). -/
def createLog (auditOk : Bool) (db : DB) (total new upd : Nat)
    (status : String) (err : Option String) : Except String DB :=
  if auditOk then .ok (appendLog db ⟨total, new, upd, status, err⟩)
  else .error "OperationalError"

/-- The mutable closure state of `sync_data`'s immediate-save mode: the
shared session plus the `nonlocal total_*` counters. -/
structure SyncState where
  db : DB
  totalRecords : Nat
  totalNew : Nat
  totalUpdated : Nat
deriving DecidableEq, Repr

/-- The `save_callback` closure of `DataManager.sync_data`
(`data_manager.py` lines 59-73): empty pages save nothing; otherwise run
`bulk_create_or_update` and bump the `nonlocal` totals.  When the bulk call
raises, the counters are untouched (the session keeps whatever the batch
had already committed, here nothing beyond `bulk`'s own reported state) and
the exception is signalled as `none` for the pagination loop to catch. -/
def saveCallback (st : SyncState) (page : List RawRecord) :
    SyncState × Option Nat :=
  if page.isEmpty then (st, some 0)
  else
    match bulkCreateOrUpdate st.db page with
    | .ok (db', n, u) =>
        ({ db := db'
           totalRecords := st.totalRecords + page.length
           totalNew := st.totalNew + n
           totalUpdated := st.totalUpdated + u }, some (n + u))
    | .error (db', _) => ({ st with db := db' }, none)

/-- The `try` body of `DataManager.sync_data` (`data_manager.py` lines
56-167).  `days_back` truthy selects `scrape_by_date_range` (the date
filters live in the fetch oracle); otherwise the code calls
`self.scraper.scrape_all(...)` — an attribute `XinfadiScraper` does not
define (the class only has `scrape_all_pages`), so the lookup raises
`AttributeError` before any page is fetched.  Zero records seen yields the
`warning` summary with no audit write; otherwise one `success` audit row is
written (a failing audit write raises out of the body). -/
def syncBody (fetch : Nat → Option (PageRes RawRecord)) (fuel limit : Nat)
    (maxPages daysBack : Option Nat) (immediateSave auditOk : Bool)
    (db : DB) : Except (String × DB) (Summary × DB) :=
  if immediateSave then
    if natTruthy daysBack then
      let res := scrapeAllPages fetch limit maxPages (some saveCallback)
        ⟨db, 0, 0, 0⟩ fuel
      let st := res.state
      if st.totalRecords == 0 then .ok (⟨"warning", 0, 0, 0⟩, st.db)
      else
        match createLog auditOk st.db st.totalRecords st.totalNew
            st.totalUpdated "success" none with
        | .ok db' =>
            .ok (⟨"success", st.totalRecords, st.totalNew, st.totalUpdated⟩, db')
        | .error e => .error (e, st.db)
    else .error ("AttributeError", db)
  else
    if natTruthy daysBack then
      let res := scrapeAllPages fetch limit maxPages
        (none : Option (Unit → List RawRecord → Unit × Option Nat)) () fuel
      let records := res.records
      if records.isEmpty then .ok (⟨"warning", 0, 0, 0⟩, db)
      else
        match bulkCreateOrUpdate db records with
        | .error (db', e) => .error (e, db')
        | .ok (db', n, u) =>
            match createLog auditOk db' records.length n u "success" none with
            | .ok db'' => .ok (⟨"success", records.length, n, u⟩, db'')
            | .error e => .error (e, db')
    else .error ("AttributeError", db)

/-- `DataManager.sync_data` (`data_manager.py` lines 26-195): the body's
result, with the `except` handler (lines 169-192) converting any raised
exception into an `error` summary with zeroed counters after a best-effort
`error` audit write whose own failure is swallowed by the inner
`try/except: pass`. -/
def syncData (fetch : Nat → Option (PageRes RawRecord)) (fuel limit : Nat)
    (maxPages daysBack : Option Nat) (immediateSave auditOk : Bool)
    (db : DB) : Summary × DB :=
  match syncBody fetch fuel limit maxPages daysBack immediateSave auditOk db with
  | .ok r => r
  | .error (e, db₁) =>
      let db₂ :=
        match createLog auditOk db₁ 0 0 0 "error" (some e) with
        | .ok d => d
        | .error _ => db₁
      (⟨"error", 0, 0, 0⟩, db₂)

/-- `DataManager.sync_by_product` (`data_manager.py` lines 214-235):
`sync_data` with product filters (folded into the fetch oracle) and all
remaining parameters at their defaults — in particular no `days_back`. -/
def syncByProduct (fetch : Nat → Option (PageRes RawRecord)) (fuel limit : Nat)
    (auditOk : Bool) (db : DB) : Summary × DB :=
  syncData fetch fuel limit none none true auditOk db

/-- `DataManager.sync_incremental` (`data_manager.py` lines 197-212):
`sync_data` with page size 50 and `days_back = days`. -/
def syncIncremental (fetch : Nat → Option (PageRes RawRecord)) (fuel : Nat)
    (days : Nat) (auditOk : Bool) (db : DB) : Summary × DB :=
  syncData fetch fuel 50 none (some days) true auditOk db

/-- The records of page `p` according to the fetch oracle (empty when the
fetch fails; only applied to successfully fetched pages). -/
def pageAt (fetch : Nat → Option (PageRes RawRecord)) (p : Nat) :
    List RawRecord :=
  match fetch p with
  | some pg => pg.list
  | none => []

/-- Folding `save_callback` over `k` consecutive pages starting at `cur`:
the per-page persistence that `scrape_all_pages` performs before a later
fetch failure truncates the walk. -/
def ingest (fetch : Nat → Option (PageRes RawRecord)) :
    Nat → Nat → SyncState → SyncState
  | 0, _, st => st
  | k + 1, cur, st => ingest fetch k (cur + 1) (saveCallback st (pageAt fetch cur)).1

/-! ## Shared concrete fixtures -/

/-- Empty storage. -/
def emptyDB : DB := ⟨[], []⟩

/-- A fully valid upstream record: truthy name and date, canonical
timestamp text, non-null place/spec, non-null non-zero prices. -/
def sampleRec : RawRecord :=
  { id := some 11
    prodName := some "apple"
    prodCatid := some 1
    prodCat := some "fruit"
    prodPcatid := some 100
    prodPcat := some "agri"
    lowPrice := some 5
    highPrice := some 8
    avgPrice := some 6
    place := some "shandong"
    specInfo := some "fuji"
    unitInfo := some "jin"
    pubDate := some "2024-01-15 10:00:00"
    status := some 1 }

/-! ## Claims -/

/-- Helper: `retryGo` on an oracle that always reports a transport error
makes every remaining attempt, sleeping `RETRY_INTERVAL` between
consecutive ones, then returns `None`. -/
theorem retryGo_all_netErr {ρ : Type} (f : Nat → AttemptOutcome ρ)
    (h : ∀ i, f i = .netErr) :
    ∀ n made sleeps, retryGo f (n + 1) made sleeps =
      (none, made + n + 1,
        (List.replicate n Config.RETRY_INTERVAL ++ sleeps).reverse) := by
  intro n
  induction n with
  | zero =>
      intro made sleeps
      simp [retryGo, h made]
  | succ n ih =>
      intro made sleeps
      rw [show n + 1 + 1 = (n + 1) + 1 from rfl, retryGo, h made]
      simp only [Nat.succ_ne_zero, if_neg, beq_iff_eq]
      rw [if_neg (by simp)]
      rw [ih (made + 1) (Config.RETRY_INTERVAL :: sleeps)]
      have h1 : made + 1 + n + 1 = made + (n + 1) + 1 := by omega
      have h2 : List.replicate n Config.RETRY_INTERVAL ++
          Config.RETRY_INTERVAL :: sleeps =
          List.replicate (n + 1) Config.RETRY_INTERVAL ++ sleeps := by
        rw [List.replicate_succ' (n := n)]
        simp
      rw [h1, h2]

/-- **C7.** `_make_request` retry policy: when every attempt ends in a
transport-level failure (connection error, timeout, HTTP error), exactly
`RETRY_MAX_ATTEMPTS` attempts are made with exactly
`RETRY_MAX_ATTEMPTS - 1` inter-attempt sleeps of `RETRY_INTERVAL` seconds,
and the call returns `None` instead of raising; a JSON-decode failure on
the first attempt yields exactly one attempt, no sleep, and an immediate
`None`. -/
theorem c7_retry_bound (ρ : Type) :
    (∀ f : Nat → AttemptOutcome ρ, (∀ i, f i = .netErr) →
        makeRequest f =
          (none, Config.RETRY_MAX_ATTEMPTS,
            List.replicate (Config.RETRY_MAX_ATTEMPTS - 1) Config.RETRY_INTERVAL)) ∧
    (∀ f : Nat → AttemptOutcome ρ, f 0 = .jsonErr →
        makeRequest f = (none, 1, [])) := by
  constructor
  · intro f h
    have := retryGo_all_netErr f h 4 0 []
    simpa [makeRequest, Config.RETRY_MAX_ATTEMPTS] using this
  · intro f h
    rw [makeRequest, show Config.RETRY_MAX_ATTEMPTS = 4 + 1 from rfl, retryGo, h]
    rfl

/-- Witness for C7 at two concrete oracles. -/
theorem c7_retry_bound_witness :
    makeRequest (fun _ : Nat => AttemptOutcome.netErr (ρ := Unit)) =
      (none, 5, [10, 10, 10, 10]) ∧
    makeRequest (fun _ : Nat => AttemptOutcome.jsonErr (ρ := Unit)) =
      (none, 1, []) := by
  constructor
  · simpa using (c7_retry_bound Unit).1 (fun _ => .netErr) (fun _ => rfl)
  · exact (c7_retry_bound Unit).2 (fun _ => .jsonErr) rfl

/-- **C3.** `sync_data` without `days_back` (including `sync_by_product`)
hits the missing `scraper.scrape_all` attribute (`XinfadiScraper` only
defines `scrape_all_pages`), so no page is ingested and the summary is
always an `error` with zeroed counters; a `success` status can only come
out of a truthy `days_back` date-window run. -/
theorem c3_scrape_all_missing (fetch : Nat → Option (PageRes RawRecord))
    (fuel limit : Nat) (maxPages : Option Nat) (immediateSave auditOk : Bool)
    (db : DB) :
    (syncData fetch fuel limit maxPages none immediateSave auditOk db).1 =
      ⟨"error", 0, 0, 0⟩ ∧
    (syncData fetch fuel limit maxPages none immediateSave auditOk db).2.rows =
      db.rows ∧
    (syncByProduct fetch fuel limit auditOk db).1 = ⟨"error", 0, 0, 0⟩ ∧
    (∀ daysBack : Option Nat,
      (syncData fetch fuel limit maxPages daysBack immediateSave auditOk
        db).1.status = "success" → natTruthy daysBack = true) := by
  have hbody : ∀ imm : Bool,
      syncBody fetch fuel limit maxPages none imm auditOk db =
        .error ("AttributeError", db) := by
    intro imm
    cases imm <;> simp [syncBody, natTruthy]
  have hrun : ∀ imm : Bool,
      (syncData fetch fuel limit maxPages none imm auditOk db).1 =
          ⟨"error", 0, 0, 0⟩ ∧
        (syncData fetch fuel limit maxPages none imm auditOk db).2.rows =
          db.rows := by
    intro imm
    rw [syncData, hbody imm]
    cases auditOk <;> simp [createLog, appendLog]
  refine ⟨(hrun immediateSave).1, (hrun immediateSave).2, ?_, ?_⟩
  · exact (hrun true).1 ▸ by rw [syncByProduct]; exact (hrun true).1
  · intro daysBack hs
    match daysBack with
    | none =>
        rw [(hrun immediateSave).1] at hs
        simp at hs
    | some 0 =>
        have hbody0 : syncBody fetch fuel limit maxPages (some 0)
            immediateSave auditOk db = .error ("AttributeError", db) := by
          cases immediateSave <;> simp [syncBody, natTruthy]
        rw [syncData, hbody0] at hs
        cases hA : auditOk <;> simp [hA, createLog, appendLog] at hs
    | some (n + 1) => simp [natTruthy]

/-- Witness for C3: a concrete run with `days_back = 1` that does return
`success`, discharging the implication's hypothesis. -/
theorem c3_scrape_all_missing_witness : natTruthy (some 1) = true :=
  (c3_scrape_all_missing (fun _ => some ⟨1, [sampleRec]⟩) 10 20 none true true
    emptyDB).2.2.2 (some 1) (by decide)

/-- The length of the page the oracle returns at `p` (0 for a failed
fetch). -/
def pageLenAt {α : Type} (fetch : Nat → Option (PageRes α)) (p : Nat) : Nat :=
  match fetch p with
  | some pr => pr.list.length
  | none => 0

/-- A source reporting 45 matching records that serves pages of 20, 20 and
5 records and fails afterwards. -/
def oracle45 : Nat → Option (PageRes Unit)
  | 1 => some ⟨45, List.replicate 20 ()⟩
  | 2 => some ⟨45, List.replicate 20 ()⟩
  | 3 => some ⟨45, List.replicate 5 ()⟩
  | _ => none

/-- A source reporting 45 matching records that keeps serving full pages
of 20 records forever. -/
def c4FullOracle : Nat → Option (PageRes Unit) :=
  fun _ => some ⟨45, List.replicate 20 ()⟩

/-- No save callback (`scrape_all_pages`' accumulate-in-memory mode). -/
def noCbUnit : Option (Unit → List Unit → Unit × Option Nat) := none

/-- Helper: any page number past the first that the pagination loop
requests is the successor of a page that was fetched successfully and
triggered neither break condition. -/
theorem scrapeGo_requested_advance {α σ : Type}
    (fetch : Nat → Option (PageRes α)) (limit : Nat) (maxPages : Option Nat)
    (cb : Option (σ → List α → σ × Option Nat)) :
    ∀ fuel cur st req acc saved tc tp x,
      x ∈ (scrapeGo fetch limit maxPages cb fuel cur st req acc saved tc
        tp).requested →
      x ∈ req ∨ x = cur ∨
        (cur < x ∧ ∃ pr, fetch (x - 1) = some pr ∧
          pageStops limit maxPages pr.list.length (x - 1) = false) := by
  intro fuel
  induction fuel with
  | zero =>
      intro cur st req acc saved tc tp x hx
      simp only [scrapeGo] at hx
      rw [List.mem_reverse] at hx
      exact Or.inl hx
  | succ n ih =>
      intro cur st req acc saved tc tp x hx
      simp only [scrapeGo] at hx
      cases hf : fetch cur with
      | none =>
          rw [hf] at hx
          simp only [List.mem_reverse, List.mem_cons] at hx
          rcases hx with h | h
          · exact Or.inr (Or.inl h)
          · exact Or.inl h
      | some page =>
          rw [hf] at hx
          simp only at hx
          by_cases hstop : pageStops limit maxPages page.list.length cur = true
          · rw [if_pos hstop] at hx
            simp only [List.mem_reverse, List.mem_cons] at hx
            rcases hx with h | h
            · exact Or.inr (Or.inl h)
            · exact Or.inl h
          · rw [if_neg hstop] at hx
            rcases ih _ _ _ _ _ _ _ _ hx with h | h | ⟨hlt, pr, hpr, hps⟩
            · rcases List.mem_cons.mp h with h' | h'
              · exact Or.inr (Or.inl h')
              · exact Or.inl h'
            · subst h
              refine Or.inr (Or.inr ⟨by omega, page, ?_, ?_⟩)
              · simpa using hf
              · simpa using Bool.eq_false_iff.mpr hstop
            · exact Or.inr (Or.inr ⟨by omega, pr, hpr, hps⟩)

/-- **C4 (amended).** The pagination driver requests pages from 1 upward
and, concretely, for a source reporting total count 45 with page size 20
serving pages of 20, 20 and 5 records it requests exactly pages 1, 2, 3
(45 records) while computing `total_pages = 3`; in general a page `p + 1`
(`p ≥ 1`) is only requested when page `p` was fetched successfully with at
least `limit` records and `max_pages` (when supplied and non-zero) still
exceeds `p` — the computed total-page count is *not* among the
termination conditions. -/
theorem c4_pagination :
    ((scrapeAllPages oracle45 20 none noCbUnit () 10).requested = [1, 2, 3] ∧
     (scrapeAllPages oracle45 20 none noCbUnit () 10).records.length = 45 ∧
     (scrapeAllPages oracle45 20 none noCbUnit () 10).totalPages = 3) ∧
    (∀ (α σ : Type) (fetch : Nat → Option (PageRes α)) (limit : Nat)
        (maxPages : Option Nat) (cb : Option (σ → List α → σ × Option Nat))
        (st : σ) (fuel p : Nat), 1 ≤ p →
      (p + 1) ∈ (scrapeAllPages fetch limit maxPages cb st fuel).requested →
      (fetch p).isSome = true ∧ limit ≤ pageLenAt fetch p ∧
        (∀ mp, maxPages = some mp → mp ≠ 0 → p < mp)) := by
  constructor
  · exact ⟨by decide, by decide, by decide⟩
  · intro α σ fetch limit maxPages cb st fuel p hp hmem
    rcases scrapeGo_requested_advance fetch limit maxPages cb fuel 1 st [] []
        0 none 0 (p + 1) hmem with h | h | ⟨_, pr, hpr, hps⟩
    · simp at h
    · omega
    · have hx : p + 1 - 1 = p := by omega
      rw [hx] at hpr hps
      simp only [pageStops, Bool.or_eq_false_iff, decide_eq_false_iff_not] at hps
      refine ⟨by simp [hpr], ?_, ?_⟩
      · rw [pageLenAt, hpr]
        exact Nat.le_of_not_lt hps.1
      · intro mp hmp hne
        rw [hmp] at hps
        have h2 := hps.2
        simp only [decide_eq_false_iff_not] at h2
        by_contra hle
        exact h2 ⟨hne, by omega⟩

/-- Witness for C4's general part at the concrete 45/20 source, page 1. -/
theorem c4_pagination_witness :
    (oracle45 1).isSome = true ∧ 20 ≤ pageLenAt oracle45 1 :=
  ⟨(c4_pagination.2 Unit Unit oracle45 20 none noCbUnit () 10 1 (by decide)
      (by decide)).1,
   (c4_pagination.2 Unit Unit oracle45 20 none noCbUnit () 10 1 (by decide)
      (by decide)).2.1⟩

/-- **C4 counterexample.** Against a source that reports 45 total records
(page size 20, no `max_pages`, so the claimed clamped total-page count is
3) but keeps serving full pages, the driver requests a 4th page: the
termination condition "the page-number counter reaches
`ceil(total_count / page_size)`" is not implemented — `total_pages` is
computed only for logging. -/
theorem c4_pagination_counterexample :
    (scrapeAllPages c4FullOracle 20 none noCbUnit () 6).totalCount = some 45 ∧
    (scrapeAllPages c4FullOracle 20 none noCbUnit () 6).totalPages = 3 ∧
    4 ∈ (scrapeAllPages c4FullOracle 20 none noCbUnit () 6).requested := by
  refine ⟨by decide, by decide, by decide⟩

/-- A record whose publish timestamp does not parse in the fixed
`YYYY-MM-DD HH:MM:SS` format. -/
def badDateRec : RawRecord :=
  { sampleRec with id := some 12, pubDate := some "not-a-date" }

/-- A second valid record, distinct from `sampleRec` in name and id. -/
def pearRec : RawRecord :=
  { sampleRec with id := some 13, prodName := some "pear" }

/-- Helper: `collectConds` raises `ValueError` whenever the batch contains
a keyed record whose publish timestamp fails to parse. -/
theorem collectConds_valueError :
    ∀ (records : List RawRecord) (r : RawRecord), r ∈ records →
      strTruthy r.prodName = true → strTruthy r.pubDate = true →
      pubDateParsed r = none →
      collectConds records = .error "ValueError" := by
  intro records
  induction records with
  | nil => intro r hr; simp at hr
  | cons a rest ih =>
      intro r hr hname hdate hparse
      rcases List.mem_cons.mp hr with h | h
      · subst h
        simp only [collectConds, hname, hdate, and_self, if_true, hparse]
        rfl
      · rcases Decidable.em
            (strTruthy a.prodName = true ∧ strTruthy a.pubDate = true) with
          ha | ha
        · cases hpa : pubDateParsed a with
          | none =>
              simp only [collectConds, ha.1, ha.2, and_self, if_true, hpa]
              rfl
          | some d =>
              have := ih r h hname hdate hparse
              simp only [collectConds, ha.1, ha.2, and_self, if_true, hpa, this]
              rfl
        · have := ih r h hname hdate hparse
          simp only [collectConds, if_neg ha, this]

/-- **C2 (amended).** A record with a truthy product name and a truthy but
unparseable publish-timestamp string makes the whole
`bulk_create_or_update` call raise `ValueError` out of the batch
existence pre-check: no record of that batch — before or after the bad
one — is processed, and the call leaves storage exactly as it was.  In
immediate-save sync, the page-level callback catches the exception,
drops the entire page with the running totals untouched, and the run
continues with later pages (so writes committed by *earlier pages*
survive). -/
theorem c2_parse_failure_aborts_batch (db : DB) (records : List RawRecord)
    (r : RawRecord) (hr : r ∈ records) (hname : strTruthy r.prodName = true)
    (hdate : strTruthy r.pubDate = true) (hparse : pubDateParsed r = none) :
    bulkCreateOrUpdate db records = .error (db, "ValueError") ∧
    (∀ st : SyncState, st.db = db → saveCallback st records = (st, none)) := by
  have hne : records.isEmpty = false := by
    cases records with
    | nil => simp at hr
    | cons a rest => rfl
  have hcc := collectConds_valueError records r hr hname hdate hparse
  have hbulk : bulkCreateOrUpdate db records = .error (db, "ValueError") := by
    rw [bulkCreateOrUpdate, if_neg (by simp [hne])]
    have hex : existsBatchByUniqueKey db records = .error "ValueError" := by
      rw [existsBatchByUniqueKey, hcc]
    rw [hex]
    rfl
  refine ⟨hbulk, ?_⟩
  intro st hst
  cases st with
  | mk db0 t n u =>
      simp only at hst
      subst hst
      rw [saveCallback, if_neg (by simp [hne]), hbulk]

/-- Witness for C2's amended theorem at a concrete bad-date batch. -/
theorem c2_parse_failure_aborts_batch_witness :
    bulkCreateOrUpdate emptyDB [sampleRec, badDateRec, pearRec] =
      .error (emptyDB, "ValueError") :=
  (c2_parse_failure_aborts_batch emptyDB [sampleRec, badDateRec, pearRec]
    badDateRec (by simp) (by decide) (by decide) (by decide)).1

/-- **C2 counterexample.** The batch `[valid, bad-date, valid]` is aborted
wholesale: `bulk_create_or_update` raises and stores nothing — not even
the valid record *preceding* the bad one — contradicting the claim that
only the offending record is dropped while the rest of the batch is
processed. -/
theorem c2_parse_failure_counterexample :
    bulkCreateOrUpdate emptyDB [pearRec, badDateRec, sampleRec] =
      .error (emptyDB, "ValueError") ∧
    (saveCallback ⟨emptyDB, 0, 0, 0⟩ [pearRec, badDateRec, sampleRec]).1 =
      ⟨emptyDB, 0, 0, 0⟩ := by
  refine ⟨by rfl, by decide⟩

/-- Helper: the INSERT commit touches only the `price_data` table. -/
theorem insertRow_logs (db : DB) (row : Row) (db' : DB)
    (h : insertRow db row = .ok db') : db'.logs = db.logs := by
  unfold insertRow at h
  split at h
  · exact absurd h (by simp)
  · split at h
    · exact absurd h (by simp)
    · simp only [Except.ok.injEq] at h
      rw [← h]

/-- Helper: the UPDATE commit touches only the `price_data` table. -/
theorem commitUpdate_logs (db : DB) (rid : Nat) (row' : Row) (db' : DB)
    (h : commitUpdate db rid row' = .ok db') : db'.logs = db.logs := by
  unfold commitUpdate at h
  split at h
  · exact absurd h (by simp)
  · split at h
    · exact absurd h (by simp)
    · simp only [Except.ok.injEq] at h
      rw [← h]

/-- Helper: `create` never writes to the `scraping_logs` table. -/
theorem create_logs (db : DB) (r : RawRecord) (db' : DB) (row : Row)
    (h : create db r = .ok (db', row)) : db'.logs = db.logs := by
  unfold create at h
  split at h
  · exact absurd h (by simp)
  · split at h
    · exact absurd h (by simp)
    · simp only [Except.ok.injEq, Prod.mk.injEq] at h
      rw [← h.1]
    · split at h
      · exact absurd h (by simp)
      · rename_i db'' heq
        simp only [Except.ok.injEq, Prod.mk.injEq] at h
        rw [← h.1]
        exact insertRow_logs _ _ _ heq

/-- Helper: `update` never writes to the `scraping_logs` table. -/
theorem update_logs (db : DB) (rid : Nat) (r : RawRecord) (db' : DB)
    (o : Option Row) (h : update db rid r = .ok (db', o)) :
    db'.logs = db.logs := by
  unfold update at h
  split at h
  · simp only [Except.ok.injEq, Prod.mk.injEq] at h
    rw [← h.1]
  · split at h
    · exact absurd h (by simp)
    · split at h
      · exact absurd h (by simp)
      · rename_i db'' heq
        simp only [Except.ok.injEq, Prod.mk.injEq] at h
        rw [← h.1]
        exact commitUpdate_logs _ _ _ _ heq

/-- Is an `Except` value a success? -/
def isOkE {ε α : Type} : Except ε α → Bool
  | .ok _ => true
  | .error _ => false

/-- Helper: a successful `Except` Bool test yields the success witness. -/
theorem isOkE_exists {ε α : Type} (x : Except ε α) (h : isOkE x = true) :
    ∃ a, x = .ok a := by
  cases x with
  | ok a => exact ⟨a, rfl⟩
  | error e => simp [isOkE] at h

/-- Helper: one resolution step never writes to the `scraping_logs` table. -/
theorem bulkResolve_logs (existing : List (String × Row)) (db : DB)
    (processed : List (String × Nat)) (c u : Nat) (r : RawRecord)
    (key : String) :
    (bulkResolve existing db processed c u r key).1.logs = db.logs := by
  rw [bulkResolve]
  split
  · split
    · rename_i db' o heq
      exact update_logs _ _ _ _ _ heq
    · rfl
  · split
    · split
      · rename_i db' o heq
        exact update_logs _ _ _ _ _ heq
      · rfl
    · split
      · rename_i db' nr heq
        exact create_logs _ _ _ _ heq
      · rfl

/-- Helper: the bulk loop never writes to the `scraping_logs` table. -/
theorem bulkLoop_logs (existing : List (String × Row)) :
    ∀ (records : List RawRecord) (db : DB) (processed : List (String × Nat))
      (c u : Nat) (db' : DB) (c' u' : Nat),
      bulkLoop existing records db processed c u = .ok (db', c', u') →
      db'.logs = db.logs := by
  intro records
  induction records with
  | nil =>
      intro db processed c u db' c' u' h
      simp only [bulkLoop, Except.ok.injEq, Prod.mk.injEq] at h
      rw [← h.1]
  | cons r rest ih =>
      intro db processed c u db' c' u' h
      rw [bulkLoop] at h
      split at h
      · split at h
        · split at h
          · exact absurd h (by simp)
          · rename_i hopt s hpub hdt d hd
            rcases hres : bulkResolve existing db processed c u r
                (buildKey r s) with ⟨dbm, pm, cm, um⟩
            rw [hres] at h
            have hl := bulkResolve_logs existing db processed c u r (buildKey r s)
            rw [hres] at hl
            exact (ih _ _ _ _ _ _ _ h).trans hl
        · exact ih _ _ _ _ _ _ _ h
      · exact ih _ _ _ _ _ _ _ h

/-- Helper: a successful batch pre-check means every keyed record's
timestamp parses. -/
theorem collectConds_ok_parses :
    ∀ (records : List RawRecord) (conds : List (Dt × RawRecord)),
      collectConds records = .ok conds →
      ∀ r ∈ records, strTruthy r.prodName = true →
        strTruthy r.pubDate = true → (pubDateParsed r).isSome = true := by
  intro records
  induction records with
  | nil => intro conds _ r hr; simp at hr
  | cons a rest ih =>
      intro conds hc r hr hname hdate
      rw [collectConds] at hc
      rcases List.mem_cons.mp hr with h | h
      · subst h
        rw [if_pos ⟨hname, hdate⟩] at hc
        cases hpa : pubDateParsed r with
        | none =>
            rw [hpa] at hc
            exact absurd hc (by simp [throw, throwThe, MonadExceptOf.throw])
        | some d => simp
      · split at hc
        · cases hpa : pubDateParsed a with
          | none =>
              rw [hpa] at hc
              exact absurd hc (by simp [throw, throwThe, MonadExceptOf.throw])
          | some d =>
              rw [hpa] at hc
              cases hrest : collectConds rest with
              | error e =>
                  rw [hrest] at hc
                  exact absurd hc (by simp [Bind.bind, Except.bind])
              | ok cs => exact ih cs hrest r h hname hdate
        · exact ih conds hc r h hname hdate

/-- Helper: such parse success transfers through `exists_batch`. -/
theorem existsBatch_ok_parses (db : DB) (records : List RawRecord)
    (existing : List (String × Row))
    (h : existsBatchByUniqueKey db records = .ok existing) :
    ∀ r ∈ records, strTruthy r.prodName = true →
      strTruthy r.pubDate = true → (pubDateParsed r).isSome = true := by
  rw [existsBatchByUniqueKey] at h
  cases hcc : collectConds records with
  | error e => rw [hcc] at h; exact absurd h (by simp)
  | ok conds => exact collectConds_ok_parses records conds hcc

/-- Helper: once every keyed record of the batch parses, the per-record
loop cannot raise (each create/update failure is caught inside it). -/
theorem bulkLoop_no_error (existing : List (String × Row)) :
    ∀ (records : List RawRecord) (db : DB) (processed : List (String × Nat))
      (c u : Nat),
      (∀ r ∈ records, strTruthy r.prodName = true →
        strTruthy r.pubDate = true → (pubDateParsed r).isSome = true) →
      isOkE (bulkLoop existing records db processed c u) = true := by
  intro records
  induction records with
  | nil => intro db processed c u _; rfl
  | cons r rest ih =>
      intro db processed c u hp
      have hrest : ∀ x ∈ rest, strTruthy x.prodName = true →
          strTruthy x.pubDate = true → (pubDateParsed x).isSome = true :=
        fun x hx => hp x (List.mem_cons_of_mem r hx)
      rw [bulkLoop]
      split
      · rename_i htr
        split
        · rename_i s hpub
          split
          · rename_i hd
            have hps : (strptimeYmdHMS s).isSome = true := by
              simpa [pubDateParsed, hpub] using
                hp r (List.mem_cons_self r rest) htr.1 htr.2
            rw [hd] at hps
            simp at hps
          · rcases hres : bulkResolve existing db processed c u r
                (buildKey r _) with ⟨dbm, pm, cm, um⟩
            exact ih dbm pm cm um hrest
        · exact ih db processed c u hrest
      · exact ih db processed c u hrest

/-- Helper: `bulk_create_or_update` never writes audit logs, and when it
raises it re-raises with the session exactly as it was handed in — only
the batch pre-check can raise, before any write. -/
theorem bulk_logs (db : DB) (records : List RawRecord) :
    (∀ db' c u, bulkCreateOrUpdate db records = .ok (db', c, u) →
      db'.logs = db.logs) ∧
    (∀ db₁ e, bulkCreateOrUpdate db records = .error (db₁, e) → db₁ = db) := by
  constructor
  · intro db' c u h
    rw [bulkCreateOrUpdate] at h
    split at h
    · simp only [pure, Except.pure, Except.ok.injEq, Prod.mk.injEq] at h
      rw [← h.1]
    · split at h
      · exact absurd h (by simp [throw, throwThe, MonadExceptOf.throw])
      · exact bulkLoop_logs _ _ _ _ _ _ _ _ _ h
  · intro db₁ e h
    rw [bulkCreateOrUpdate] at h
    split at h
    · exact absurd h (by simp [pure, Except.pure])
    · split at h
      · simp only [throw, throwThe, MonadExceptOf.throw, Except.error.injEq,
          Prod.mk.injEq] at h
        exact h.1.symm
      · rename_i existing hok
        obtain ⟨res, hres⟩ := isOkE_exists _
          (bulkLoop_no_error existing records db [] 0 0
            (existsBatch_ok_parses db records existing hok))
        rw [hres] at h
        exact absurd h (by simp)

/-- Helper: the save callback never writes audit logs. -/
theorem saveCallback_logs (st : SyncState) (page : List RawRecord) :
    (saveCallback st page).1.db.logs = st.db.logs := by
  rw [saveCallback]
  split
  · rfl
  · split
    · rename_i db' n u heq
      exact (bulk_logs st.db page).1 db' n u heq
    · rename_i db' e heq
      have := (bulk_logs st.db page).2 db' e heq
      simp [this]

/-- Helper: the pagination walk in immediate-save mode never writes audit
logs (only `sync_data` itself does, after the walk). -/
theorem scrapeGo_saveCallback_logs (fetch : Nat → Option (PageRes RawRecord))
    (limit : Nat) (maxPages : Option Nat) :
    ∀ (fuel cur : Nat) (st : SyncState) (req : List Nat)
      (acc : List RawRecord) (saved : Nat) (tc : Option Nat) (tp : Nat),
      ((scrapeGo fetch limit maxPages (some saveCallback) fuel cur st req acc
        saved tc tp).state).db.logs = st.db.logs := by
  intro fuel
  induction fuel with
  | zero => intro cur st req acc saved tc tp; rfl
  | succ n ih =>
      intro cur st req acc saved tc tp
      rw [scrapeGo]
      split
      · rfl
      · rename_i hopt page hf
        dsimp only
        rcases hsc : saveCallback st page.list with ⟨st', mopt⟩
        have hsl : st'.db.logs = st.db.logs := by
          have h0 := saveCallback_logs st page.list
          rw [hsc] at h0
          exact h0
        cases mopt with
        | some m =>
            dsimp only
            split
            · dsimp only
              split
              · exact hsl
              · rfl
            · split
              · exact (ih _ _ _ _ _ _ _).trans hsl
              · exact ih _ _ _ _ _ _ _
        | none =>
            dsimp only
            split
            · dsimp only
              split
              · exact hsl
              · rfl
            · split
              · exact (ih _ _ _ _ _ _ _).trans hsl
              · exact ih _ _ _ _ _ _ _

/-- **C9.** The orchestrator boundary: whenever the `try` body of
`sync_data` raises, `sync_data` catches it, makes a best-effort attempt to
write one `error` audit entry (a failure of that write is itself
swallowed), and returns the `error` summary with zeroed counters instead
of propagating; on normal completion having seen at least one record, the
run's status is `success` and exactly one `success` audit entry carrying
the accumulated totals has been appended to the audit log. -/
theorem c9_error_boundary (fetch : Nat → Option (PageRes RawRecord))
    (fuel limit : Nat) (maxPages daysBack : Option Nat)
    (immediateSave auditOk : Bool) (db : DB) :
    (∀ e db₁,
      syncBody fetch fuel limit maxPages daysBack immediateSave auditOk db =
        .error (e, db₁) →
      syncData fetch fuel limit maxPages daysBack immediateSave auditOk db =
        (⟨"error", 0, 0, 0⟩,
          if auditOk then appendLog db₁ ⟨0, 0, 0, "error", some e⟩ else db₁)) ∧
    (∀ s db',
      syncBody fetch fuel limit maxPages daysBack immediateSave auditOk db =
        .ok (s, db') →
      1 ≤ s.total_records →
      s.status = "success" ∧
      db'.logs = db.logs ++
        [⟨s.total_records, s.new_records, s.updated_records, "success",
          none⟩]) := by
  constructor
  · intro e db₁ h
    rw [syncData, h]
    cases auditOk <;> simp [createLog, appendLog]
  · intro s db' h htot
    rw [syncBody] at h
    split at h
    · split at h
      · dsimp only at h
        split at h
        · simp only [Except.ok.injEq, Prod.mk.injEq] at h
          rw [← h.1] at htot
          simp at htot
        · split at h
          · rename_i db'' heq
            simp only [Except.ok.injEq, Prod.mk.injEq] at h
            rw [createLog] at heq
            split at heq
            · rename_i hA
              simp only [Except.ok.injEq] at heq
              rw [← h.1, ← h.2, ← heq]
              refine ⟨rfl, ?_⟩
              rw [appendLog]
              simp only [scrapeAllPages]
              rw [scrapeGo_saveCallback_logs fetch limit maxPages fuel 1
                ⟨db, 0, 0, 0⟩ [] [] 0 none 0]
            · exact absurd heq (by simp)
          · exact absurd h (by simp)
      · exact absurd h (by simp)
    · split at h
      · dsimp only at h
        split at h
        · simp only [Except.ok.injEq, Prod.mk.injEq] at h
          rw [← h.1] at htot
          simp at htot
        · split at h
          · exact absurd h (by simp)
          · rename_i db₁ nn uu heqb
            split at h
            · rename_i db'' heq
              simp only [Except.ok.injEq, Prod.mk.injEq] at h
              rw [createLog] at heq
              split at heq
              · rename_i hA
                simp only [Except.ok.injEq] at heq
                rw [← h.1, ← h.2, ← heq]
                refine ⟨rfl, ?_⟩
                rw [appendLog]
                rw [(bulk_logs db _).1 db₁ nn uu heqb]
              · exact absurd heq (by simp)
            · exact absurd h (by simp)
      · exact absurd h (by simp)

/-- Witness for C9: a concrete failing run (missing `days_back` raises) and
a concrete successful run of one page with one record. -/
theorem c9_error_boundary_witness :
    syncData (fun _ => none) 5 20 none none true true emptyDB =
      (⟨"error", 0, 0, 0⟩,
        appendLog emptyDB ⟨0, 0, 0, "error", some "AttributeError"⟩) ∧
    ((⟨"success", 1, 1, 0⟩ : Summary).status = "success" ∧
      (syncData (fun _ => some ⟨1, [sampleRec]⟩) 5 20 none (some 1) true true
        emptyDB).2.logs =
        emptyDB.logs ++ [⟨1, 1, 0, "success", none⟩]) :=
  ⟨by
    simpa using (c9_error_boundary (fun _ => none) 5 20 none none true true
      emptyDB).1 "AttributeError" emptyDB rfl,
   (c9_error_boundary (fun _ => some ⟨1, [sampleRec]⟩) 5 20 none (some 1)
      true true emptyDB).2 ⟨"success", 1, 1, 0⟩ _ rfl (by decide)⟩

/-- Every record of the batch that carries the two key fields also carries
a parseable timestamp (the condition under which `bulk_create_or_update`
cannot raise). -/
def KeyedParses (records : List RawRecord) : Prop :=
  ∀ r ∈ records, strTruthy r.prodName = true →
    strTruthy r.pubDate = true → (pubDateParsed r).isSome = true

instance (records : List RawRecord) : Decidable (KeyedParses records) := by
  unfold KeyedParses
  infer_instance

/-- Helper: the batch pre-check cannot raise on a batch whose keyed
records all parse. -/
theorem collectConds_no_error (records : List RawRecord)
    (hp : KeyedParses records) :
    ∃ conds, collectConds records = .ok conds := by
  induction records with
  | nil => exact ⟨[], rfl⟩
  | cons a rest ih =>
      have hrest : KeyedParses rest := fun x hx => hp x (List.mem_cons_of_mem a hx)
      obtain ⟨cs, hcs⟩ := ih hrest
      rw [collectConds]
      split
      · rename_i ha
        cases hpa : pubDateParsed a with
        | none =>
            have := hp a (List.mem_cons_self a rest) ha.1 ha.2
            rw [hpa] at this
            simp at this
        | some d =>
            refine ⟨(d, a) :: cs, ?_⟩
            rw [hcs]
            rfl
      · exact ⟨cs, hcs⟩

/-- Helper: `bulk_create_or_update` succeeds on a batch whose keyed
records all parse. -/
theorem bulk_no_error (db : DB) (records : List RawRecord)
    (hp : KeyedParses records) :
    isOkE (bulkCreateOrUpdate db records) = true := by
  rw [bulkCreateOrUpdate]
  split
  · rfl
  · obtain ⟨cs, hcs⟩ := collectConds_no_error records hp
    have hex : ∃ ex, existsBatchByUniqueKey db records = .ok ex := by
      rw [existsBatchByUniqueKey, hcs]
      dsimp only
      by_cases hcse : cs.isEmpty = true
      · rw [if_pos hcse]
        exact ⟨[], rfl⟩
      · rw [if_neg hcse]
        exact ⟨existsBatchMap db cs, rfl⟩
    obtain ⟨ex, hex⟩ := hex
    rw [hex]
    exact bulkLoop_no_error ex records db [] 0 0 hp

/-- Helper: a successful save of a non-empty page bumps the record total
by the page length. -/
theorem saveCallback_totals (st : SyncState) (page : List RawRecord)
    (hp : KeyedParses page) (hne : page ≠ []) :
    (saveCallback st page).1.totalRecords = st.totalRecords + page.length := by
  obtain ⟨⟨db', c, u⟩, hok⟩ := isOkE_exists _ (bulk_no_error st.db page hp)
  rw [saveCallback, if_neg (by simp [hne]), hok]

/-- Helper: in immediate-save mode the pagination walk over `k` full,
well-formed pages followed by a fetch failure computes exactly the
`ingest` fold of its callback state — the already-persisted pages are
surfaced, not discarded. -/
theorem scrapeGo_runs_ingest (fetch : Nat → Option (PageRes RawRecord))
    (limit : Nat) (hl : 0 < limit) :
    ∀ (k fuel cur : Nat) (st : SyncState) (req : List Nat)
      (acc : List RawRecord) (saved : Nat) (tc : Option Nat) (tp : Nat),
      (∀ p, cur ≤ p → p < cur + k →
        ∃ pr, fetch p = some pr ∧ pr.list.length = limit) →
      fetch (cur + k) = none →
      k < fuel →
      (scrapeGo fetch limit none (some saveCallback) fuel cur st req acc saved
        tc tp).state = ingest fetch k cur st := by
  intro k
  induction k with
  | zero =>
      intro fuel cur st req acc saved tc tp _ hfail hfuel
      cases fuel with
      | zero => omega
      | succ m =>
          rw [scrapeGo]
          rw [show cur + 0 = cur from rfl] at hfail
          rw [hfail]
          rfl
  | succ k ih =>
      intro fuel cur st req acc saved tc tp hpages hfail hfuel
      cases fuel with
      | zero => omega
      | succ m =>
          obtain ⟨pr, hpr, hlen⟩ := hpages cur (le_refl cur) (by omega)
          rw [scrapeGo, hpr]
          dsimp only
          rcases hsc : saveCallback st pr.list with ⟨st₁, mopt⟩
          have hstop : pageStops limit none pr.list.length cur = false := by
            simp [pageStops, hlen]
          have hlen0 : pr.list.length ≠ 0 := by omega
          have hrest : ∀ p, cur + 1 ≤ p → p < cur + 1 + k →
              ∃ pr, fetch p = some pr ∧ pr.list.length = limit := by
            intro p h1 h2
            exact hpages p (by omega) (by omega)
          have hfail' : fetch (cur + 1 + k) = none := by
            rw [show cur + 1 + k = cur + (k + 1) from by omega]
            exact hfail
          have hingest : ingest fetch (k + 1) cur st =
              ingest fetch k (cur + 1) st₁ := by
            rw [ingest]
            congr 1
            rw [pageAt, hpr, hsc]
          rw [hingest]
          cases mopt with
          | some n =>
              dsimp only
              rw [if_neg (by simp [hstop]), if_pos hlen0]
              exact ih m (cur + 1) st₁ _ _ _ _ _ hrest hfail' (by omega)
          | none =>
              dsimp only
              rw [if_neg (by simp [hstop]), if_pos hlen0]
              exact ih m (cur + 1) st₁ _ _ _ _ _ hrest hfail' (by omega)

/-- Helper: folding `save_callback` over `k` full, well-formed pages bumps
the record total by `k * limit`. -/
theorem ingest_totals (fetch : Nat → Option (PageRes RawRecord))
    (limit : Nat) (hl : 0 < limit) :
    ∀ (k cur : Nat) (st : SyncState),
      (∀ p, cur ≤ p → p < cur + k →
        ∃ pr, fetch p = some pr ∧ pr.list.length = limit ∧
          KeyedParses pr.list) →
      (ingest fetch k cur st).totalRecords = st.totalRecords + k * limit := by
  intro k
  induction k with
  | zero => intro cur st _; simp [ingest]
  | succ k ih =>
      intro cur st hpages
      obtain ⟨pr, hpr, hlen, hparse⟩ := hpages cur (le_refl cur) (by omega)
      rw [ingest]
      have hrest : ∀ p, cur + 1 ≤ p → p < cur + 1 + k →
          ∃ pr, fetch p = some pr ∧ pr.list.length = limit ∧
            KeyedParses pr.list := by
        intro p h1 h2
        exact hpages p (by omega) (by omega)
      rw [ih (cur + 1) _ hrest]
      have hne : pr.list ≠ [] := by
        intro hnil
        rw [hnil] at hlen
        simp at hlen
        omega
      have := saveCallback_totals st pr.list hparse hne
      rw [pageAt, hpr, this, hlen, Nat.succ_mul]
      omega

/-- **C8.** Partial ingestion is preserved as success: when `k ≥ 1` full,
well-formed pages are fetched and persisted and the fetch client then
fails on page `k + 1`, the immediate-save `sync_data` run stops early
without raising, keeps exactly the state produced by ingesting those `k`
pages (plus one `success` audit row), and returns a `success` summary
whose total counts the `k * limit` records actually ingested — it is not
reported as an error. -/
theorem c8_partial_success (fetch : Nat → Option (PageRes RawRecord))
    (fuel limit k d : Nat) (db : DB)
    (hk : 1 ≤ k) (hl : 0 < limit) (hfuel : k < fuel) (hd : d ≠ 0)
    (hpages : ∀ p, 1 ≤ p → p ≤ k →
      ∃ pr, fetch p = some pr ∧ pr.list.length = limit ∧
        KeyedParses pr.list)
    (hfail : fetch (k + 1) = none) :
    syncData fetch fuel limit none (some d) true true db =
      (⟨"success", (ingest fetch k 1 ⟨db, 0, 0, 0⟩).totalRecords,
          (ingest fetch k 1 ⟨db, 0, 0, 0⟩).totalNew,
          (ingest fetch k 1 ⟨db, 0, 0, 0⟩).totalUpdated⟩,
        appendLog (ingest fetch k 1 ⟨db, 0, 0, 0⟩).db
          ⟨(ingest fetch k 1 ⟨db, 0, 0, 0⟩).totalRecords,
            (ingest fetch k 1 ⟨db, 0, 0, 0⟩).totalNew,
            (ingest fetch k 1 ⟨db, 0, 0, 0⟩).totalUpdated, "success", none⟩) ∧
    (ingest fetch k 1 ⟨db, 0, 0, 0⟩).totalRecords = k * limit := by
  have hpages' : ∀ p, 1 ≤ p → p < 1 + k →
      ∃ pr, fetch p = some pr ∧ pr.list.length = limit := by
    intro p h1 h2
    obtain ⟨pr, h, hlen, _⟩ := hpages p h1 (by omega)
    exact ⟨pr, h, hlen⟩
  have hstate : (scrapeAllPages fetch limit none (some saveCallback)
      (⟨db, 0, 0, 0⟩ : SyncState) fuel).state = ingest fetch k 1 ⟨db, 0, 0, 0⟩ := by
    rw [scrapeAllPages]
    exact scrapeGo_runs_ingest fetch limit hl k fuel 1 ⟨db, 0, 0, 0⟩ [] [] 0
      none 0 hpages' (by rw [show 1 + k = k + 1 from by omega]; exact hfail)
      hfuel
  have htot : (ingest fetch k 1 ⟨db, 0, 0, 0⟩).totalRecords = k * limit := by
    have := ingest_totals fetch limit hl k 1 ⟨db, 0, 0, 0⟩ (by
      intro p h1 h2
      exact hpages p h1 (by omega))
    simpa using this
  refine ⟨?_, htot⟩
  have hnz : ((ingest fetch k 1 (⟨db, 0, 0, 0⟩ : SyncState)).totalRecords == 0) = false := by
    rw [htot]
    have : k * limit ≠ 0 := by positivity
    simp [this]
  have hdt : natTruthy (some d) = true := by
    simp [natTruthy, hd]
  rw [syncData, syncBody]
  rw [if_pos rfl, if_pos hdt]
  dsimp only
  rw [hstate, hnz]
  dsimp only [createLog]
  rfl

/-- A source serving one full page of two valid records, then failing. -/
def c8Fetch : Nat → Option (PageRes RawRecord)
  | 1 => some ⟨45, [sampleRec, pearRec]⟩
  | _ => none

/-- Witness for C8 at one full two-record page followed by a failure. -/
theorem c8_partial_success_witness :
    (ingest c8Fetch 1 1 ⟨emptyDB, 0, 0, 0⟩).totalRecords = 1 * 2 :=
  (c8_partial_success c8Fetch 5 2 1 1 emptyDB (by decide) (by decide)
    (by decide) (by decide)
    (by
      intro p h1 h2
      have hp : p = 1 := by omega
      subst hp
      exact ⟨⟨45, [sampleRec, pearRec]⟩, rfl, rfl, by decide⟩)
    rfl).2

/-- Helper: every element of a list of naturals is bounded by its
`foldr max 0`. -/
theorem le_foldr_max (l : List Nat) : ∀ x ∈ l, x ≤ l.foldr max 0 := by
  induction l with
  | nil => intro x hx; simp at hx
  | cons a rest ih =>
      intro x hx
      rcases List.mem_cons.mp hx with h | h
      · subst h
        simp [List.foldr_cons, le_max_iff]
      · have := ih x h
        simp only [List.foldr_cons, le_max_iff]
        exact Or.inr this

/-- Helper: SQLite's auto-assigned rowid is fresh. -/
theorem freshId_gt (db : DB) : ∀ row ∈ db.rows, row.id < freshId db := by
  intro row hrow
  have : row.id ∈ db.rows.map Row.id := List.mem_map_of_mem Row.id hrow
  have := le_foldr_max _ _ this
  rw [freshId]
  omega

/-- Helper: a price stored non-NULL was exactly the raw non-zero input. -/
theorem coercePrice_isSome (v : Option Int)
    (h : (coercePrice v).isSome = true) : coercePrice v = v := by
  cases v with
  | none => rfl
  | some n =>
      rw [coercePrice]
      rw [coercePrice] at h
      by_cases hn : n = 0
      · rw [if_pos (by simpa using hn)] at h
        simp at h
      · rw [if_neg (by simpa using hn)]

/-- Helper: a truthy timestamp is a non-empty text. -/
theorem strTruthy_some (o : Option String) (h : strTruthy o = true) :
    ∃ s, o = some s ∧ s ≠ "" := by
  cases o with
  | none => simp [strTruthy] at h
  | some s =>
      refine ⟨s, rfl, ?_⟩
      simpa [strTruthy] using h

/-- Helper: for a truthy, parseable timestamp the conversion in `create`
yields exactly the parsed value. -/
theorem createPubDate_truthy (r : RawRecord)
    (hdate : strTruthy r.pubDate = true)
    (hparse : (pubDateParsed r).isSome = true) :
    createPubDate r = .ok (pubDateParsed r) := by
  obtain ⟨s, hpub, hs⟩ := strTruthy_some _ hdate
  have hpd : pubDateParsed r = strptimeYmdHMS s := by
    rw [pubDateParsed, hpub]
  rw [hpd] at hparse
  rw [createPubDate, hpub, hpd]
  dsimp only
  rw [if_pos hs]
  cases hd : strptimeYmdHMS s with
  | none => rw [hd] at hparse; simp at hparse
  | some d => rfl

/-- Helper: with a truthy, parseable timestamp, `exists_by_unique_key` is
the first-match lookup at the parsed date. -/
theorem existsByUniqueKey_truthy (db : DB) (r : RawRecord)
    (hdate : strTruthy r.pubDate = true)
    (hparse : (pubDateParsed r).isSome = true) :
    existsByUniqueKey db r =
      .ok (db.rows.find? (matchesRecord (pubDateParsed r) r)) := by
  obtain ⟨s, hpub, _⟩ := strTruthy_some _ hdate
  have hpd : pubDateParsed r = strptimeYmdHMS s := by
    rw [pubDateParsed, hpub]
  rw [hpd] at hparse
  rw [existsByUniqueKey, hpub, hpd]
  dsimp only
  cases hd : strptimeYmdHMS s with
  | none => rw [hd] at hparse; simp at hparse
  | some d => rfl

/-- Helper: a `uq_all_business_fields` conflict between the row `create`
is inserting and a stored row implies the stored row already matched the
`exists_by_unique_key` filter for that record — the unique constraint is
strictly narrower than the dedup guard. -/
theorem conflict_matches (db : DB) (r : RawRecord) (pd : Option Dt)
    (row : Row) (h : uniqueConflict (newRowFor db r pd) row = true) :
    matchesRecord pd r row = true := by
  simp only [uniqueConflict, newRowFor, decide_eq_true_eq, beq_iff_eq] at h
  obtain ⟨hn1, hn2, hc1, hc2, hc3, hc4, hc5, hc6, hc7, hc8,
    hl1, hl2, hh1, hh2, ha1, ha2, hp1, hp2, hs1, hs2,
    hu1, hu2, hd1, hd2, hst1, hst2⟩ := h
  simp only [matchesRecord, decide_eq_true_eq, beq_iff_eq]
  refine ⟨hn2.symm, hc2.symm, hc4.symm, hc6.symm, hc8.symm, ?_, ?_, ?_,
    ?_, ?_, hu2.symm, hd2.symm, hst2.symm⟩
  · rw [← hl2, coercePrice_isSome r.lowPrice hl1]
  · rw [← hh2, coercePrice_isSome r.highPrice hh1]
  · rw [← ha2, coercePrice_isSome r.avgPrice ha1]
  · cases hp : r.place with
    | none => rw [hp] at hp1; simp at hp1
    | some t =>
        rw [hp] at hp2
        rw [← hp2]
        rfl
  · cases hsi : r.specInfo with
    | none => rw [hsi] at hs1; simp at hs1
    | some t =>
        rw [hsi] at hs2
        rw [← hs2]
        rfl

/-- Helper: when the dedup guard finds a stored match, `create` skips the
insert, leaves storage untouched and hands back the existing row. -/
theorem create_match_skip (db : DB) (r : RawRecord) (row : Row)
    (hname : strTruthy r.prodName = true)
    (hdate : strTruthy r.pubDate = true)
    (hparse : (pubDateParsed r).isSome = true)
    (hex : existsByUniqueKey db r = .ok (some row)) :
    create db r = .ok (db, row) := by
  rw [create, createPubDate_truthy r hdate hparse]
  dsimp only
  rw [if_pos ⟨hname, hdate⟩, hex]

/-- Helper: when the dedup guard finds nothing and the record's id does
not collide, `create` inserts exactly one new row (the unique constraint
cannot fire: a conflict would have been a dedup-guard match). -/
theorem create_inserts (db : DB) (r : RawRecord)
    (hname : strTruthy r.prodName = true)
    (hdate : strTruthy r.pubDate = true)
    (hparse : (pubDateParsed r).isSome = true)
    (hex : existsByUniqueKey db r = .ok none)
    (hid : ∀ row ∈ db.rows, row.id ≠ (newRowFor db r (pubDateParsed r)).id) :
    create db r =
      .ok ({ db with rows := db.rows ++ [newRowFor db r (pubDateParsed r)] },
        newRowFor db r (pubDateParsed r)) := by
  have hmatches : ∀ row ∈ db.rows,
      matchesRecord (pubDateParsed r) r row = false := by
    have hfind : db.rows.find? (matchesRecord (pubDateParsed r) r) = none := by
      have h2 := (existsByUniqueKey_truthy db r hdate hparse).symm.trans hex
      simpa using h2
    intro row hrow
    have := List.find?_eq_none.mp hfind row hrow
    simpa using this
  have hinsert : insertRow db (newRowFor db r (pubDateParsed r)) =
      .ok { db with rows := db.rows ++ [newRowFor db r (pubDateParsed r)] } := by
    obtain ⟨s, hpn, _⟩ := strTruthy_some _ hname
    rw [insertRow]
    rw [if_neg (by simp [newRowFor, hpn])]
    rw [if_neg ?_]
    intro hany
    rw [List.any_eq_true] at hany
    obtain ⟨o, ho, hor⟩ := hany
    rw [decide_eq_true_eq] at hor
    rcases hor with hid' | hconf
    · rw [beq_iff_eq] at hid'
      exact hid o ho hid'
    · have := conflict_matches db r (pubDateParsed r) o hconf
      rw [hmatches o ho] at this
      simp at this
  rw [create, createPubDate_truthy r hdate hparse]
  dsimp only
  rw [if_pos ⟨hname, hdate⟩, hex]
  dsimp only
  rw [hinsert]

/-- **C10 (amended).** `PriceDataCRUD.create` is a second deduplication
guard: for a record with a truthy product name and a parseable publish
timestamp, if storage holds a row matching all 13 business-key fields as
compared by `exists_by_unique_key`, `create` inserts nothing, leaves
storage unchanged and returns that row; otherwise — provided the record's
upstream id is absent or not already present — it inserts exactly one new
row.  (With a colliding upstream id the insert raises `IntegrityError`
and nothing is stored; see the counterexample.) -/
theorem c10_create_dedup_guard (db : DB) (r : RawRecord)
    (hname : strTruthy r.prodName = true)
    (hdate : strTruthy r.pubDate = true)
    (hparse : (pubDateParsed r).isSome = true) :
    (∀ row, existsByUniqueKey db r = .ok (some row) →
      create db r = .ok (db, row)) ∧
    (existsByUniqueKey db r = .ok none →
      (∀ row ∈ db.rows, row.id ≠ (newRowFor db r (pubDateParsed r)).id) →
      create db r =
        .ok ({ db with
          rows := db.rows ++ [newRowFor db r (pubDateParsed r)] },
          newRowFor db r (pubDateParsed r))) :=
  ⟨fun row hex => create_match_skip db r row hname hdate hparse hex,
   fun hex hid => create_inserts db r hname hdate hparse hex hid⟩

/-- Witness for C10: inserting a fresh valid record into empty storage. -/
theorem c10_create_dedup_guard_witness :
    create emptyDB sampleRec =
      .ok ({ emptyDB with
        rows := emptyDB.rows ++
          [newRowFor emptyDB sampleRec (pubDateParsed sampleRec)] },
        newRowFor emptyDB sampleRec (pubDateParsed sampleRec)) :=
  (c10_create_dedup_guard emptyDB sampleRec (by decide) (by decide)
    (by decide)).2 rfl (by intro row hrow; simp [emptyDB] at hrow)

/-- Storage holding the row created from `sampleRec` carrying upstream
id 7. -/
def c10DB : DB :=
  match create emptyDB { sampleRec with id := some 7 } with
  | .ok (d, _) => d
  | .error _ => emptyDB

/-- A record with a business key different from everything stored (its
product name is `pear`) but the already-taken upstream id 7. -/
def c10Clash : RawRecord := { pearRec with id := some 7 }

/-- **C10 counterexample.** A record with a product name and timestamp
whose business key matches nothing stored, but whose upstream id is
already taken: `create` inserts nothing and raises `IntegrityError`
instead of inserting exactly one new row. -/
theorem c10_create_dedup_guard_counterexample :
    existsByUniqueKey c10DB c10Clash = .ok none ∧
    create c10DB c10Clash = .error "IntegrityError" ∧
    c10DB.rows.length = 1 := by
  refine ⟨by rfl, by rfl, by rfl⟩

/-- Helper: the store-side price coercion is idempotent. -/
theorem coercePrice_idem (v : Option Int) :
    coercePrice (coercePrice v) = coercePrice v := by
  cases v with
  | none => rfl
  | some n =>
      rw [coercePrice]
      by_cases hn : n == 0
      · rw [if_pos hn]
        rfl
      · rw [if_neg hn, coercePrice, if_neg hn]

/-- The 13 business-key fields of a record as the store normalizes them:
prices coerced (`0`/null both `NULL`), `place`/`spec_info` null-normalized
to `""`, the timestamp parsed.  Two records agree on this tuple exactly
when the dedup machinery treats them as the same logical record. -/
def normTuple (r : RawRecord) :
    Option String × Option Int × Option String × Option Int ×
      Option String × Option Int × Option Int × Option Int × String ×
      String × Option String × Option Dt × Option Int :=
  (r.prodName, r.prodCatid, r.prodCat, r.prodPcatid, r.prodPcat,
   coercePrice r.lowPrice, coercePrice r.highPrice, coercePrice r.avgPrice,
   normStr r.place, normStr r.specInfo, r.unitInfo, pubDateParsed r,
   r.status)

/-- Helper: if an incoming record's `exists` conditions match the stored
row of a base record, the two records agree on all 13 normalized key
fields. -/
theorem matches_newRowFor (db : DB) (b v : RawRecord)
    (h : matchesRecord (pubDateParsed v) v
      (newRowFor db b (pubDateParsed b)) = true) :
    normTuple b = normTuple v := by
  simp only [matchesRecord, newRowFor, decide_eq_true_eq, beq_iff_eq] at h
  obtain ⟨h1, h2, h3, h4, h5, h6, h7, h8, h9, h10, h11, h12, h13⟩ := h
  simp only [normTuple, Prod.mk.injEq]
  refine ⟨h1, h2, h3, h4, h5, ?_, ?_, ?_, ?_, ?_, h11, h12, h13⟩
  · rw [← h6, coercePrice_idem]
  · rw [← h7, coercePrice_idem]
  · rw [← h8, coercePrice_idem]
  · rw [h9]
    rfl
  · rw [h10]
    rfl

/-- The base record and its seven single-field variants used by the
concrete half of C6 (each changes exactly one of low/high/avg price, unit
info, status, spec info, place, and carries a fresh upstream id). -/
def c6Base : RawRecord := { sampleRec with id := some 1 }

/-- The 8-record batch: the base plus its 7 single-field variants. -/
def c6Batch : List RawRecord :=
  [c6Base,
   { c6Base with id := some 2, lowPrice := some 9 },
   { c6Base with id := some 3, highPrice := some 9 },
   { c6Base with id := some 4, avgPrice := some 9 },
   { c6Base with id := some 5, unitInfo := some "kg" },
   { c6Base with id := some 6, status := some 2 },
   { c6Base with id := some 7, specInfo := some "qiu" },
   { c6Base with id := some 8, place := some "hebei" }]

/-- **C6 (amended).** Single-field-change independence: an incoming record
that differs from a stored base record in at least one of the 13 key
fields *as the store normalizes them* (prices coerced — `0` is stored
`NULL`; `place`/`spec_info` null-normalized; timestamp parsed) and whose
upstream id does not collide is reconciled by creating a new stored row,
never by updating the base row; submitting a base record plus 7
single-field variants to empty storage ends with 8 distinct rows, all
created. -/
theorem c6_single_field_independence :
    (∀ b v : RawRecord,
      strTruthy b.prodName = true → strTruthy b.pubDate = true →
      (pubDateParsed b).isSome = true →
      strTruthy v.prodName = true → strTruthy v.pubDate = true →
      (pubDateParsed v).isSome = true →
      normTuple b ≠ normTuple v →
      (newRowFor ⟨[newRowFor emptyDB b (pubDateParsed b)], []⟩ v
          (pubDateParsed v)).id ≠
        (newRowFor emptyDB b (pubDateParsed b)).id →
      bulkCreateOrUpdate ⟨[newRowFor emptyDB b (pubDateParsed b)], []⟩ [v] =
        .ok (⟨[newRowFor emptyDB b (pubDateParsed b),
          newRowFor ⟨[newRowFor emptyDB b (pubDateParsed b)], []⟩ v
            (pubDateParsed v)], []⟩, 1, 0)) ∧
    (bulkCreateOrUpdate emptyDB c6Batch).map
      (fun x => (x.1.rows.length, x.2.1, x.2.2)) = .ok (8, 8, 0) := by
  constructor
  · intro b v hbn hbd hbp hvn hvd hvp hdiff hid
    obtain ⟨s, hpub, _⟩ := strTruthy_some _ hvd
    cases hvpd : pubDateParsed v with
    | none => rw [hvpd] at hvp; simp at hvp
    | some d =>
        have hdparse : strptimeYmdHMS s = some d := by
          rw [pubDateParsed, hpub] at hvpd
          exact hvpd
        have hnomatch : matchesRecord (pubDateParsed v) v
            (newRowFor emptyDB b (pubDateParsed b)) = false := by
          rw [Bool.eq_false_iff]
          intro hm
          exact hdiff (matches_newRowFor emptyDB b v hm)
        have hnm' : matchesRecord (some d) v
            (newRowFor emptyDB b (pubDateParsed b)) = false := by
          rw [← hvpd]
          exact hnomatch
        have hcc : collectConds [v] = .ok [(d, v)] := by
          rw [collectConds, if_pos ⟨hvn, hvd⟩, hvpd]
          rfl
        have hexb : existsBatchByUniqueKey
            ⟨[newRowFor emptyDB b (pubDateParsed b)], []⟩ [v] = .ok [] := by
          rw [existsBatchByUniqueKey, hcc]
          dsimp only
          rw [if_neg (by simp)]
          simp [existsBatchMap, hnm']
        have hexv : existsByUniqueKey
            ⟨[newRowFor emptyDB b (pubDateParsed b)], []⟩ v = .ok none := by
          rw [existsByUniqueKey_truthy _ v hvd hvp]
          simp [List.find?, hnomatch]
        have hcreate := create_inserts
          ⟨[newRowFor emptyDB b (pubDateParsed b)], []⟩ v hvn hvd hvp hexv
          (by
            intro row hrow
            simp only [List.mem_singleton] at hrow
            subst hrow
            exact fun h => hid h.symm)
        rw [bulkCreateOrUpdate, if_neg (by simp), hexb]
        simp only [bulkLoop]
        rw [if_pos ⟨hvn, hvd⟩, hpub]
        dsimp only
        rw [hdparse]
        dsimp only
        rw [bulkResolve]
        dsimp only [assocFind, List.find?]
        rw [hcreate, hvpd]
        rfl
  · rfl

/-- A variant of `sampleRec` differing only in the low price (fresh id). -/
def c6WitnessVar : RawRecord := { sampleRec with id := some 2, lowPrice := some 9 }

/-- Witness for C6's general part: the low-price variant of `sampleRec`
creates a second row. -/
theorem c6_single_field_independence_witness :
    bulkCreateOrUpdate
      ⟨[newRowFor emptyDB sampleRec (pubDateParsed sampleRec)], []⟩
      [c6WitnessVar] =
      .ok (⟨[newRowFor emptyDB sampleRec (pubDateParsed sampleRec),
        newRowFor ⟨[newRowFor emptyDB sampleRec (pubDateParsed sampleRec)],
          []⟩ c6WitnessVar (pubDateParsed c6WitnessVar)], []⟩, 1, 0) :=
  c6_single_field_independence.1 sampleRec c6WitnessVar (by decide)
    (by decide) (by decide) (by decide) (by decide) (by decide)
    (fun h => absurd (congrArg (fun t => t.2.2.2.2.2.1) h) (by decide))
    (by decide)

/-- A base record whose low price is the falsy `0` — stored as `NULL`. -/
def c6B0 : RawRecord := { sampleRec with id := some 21, lowPrice := some 0 }

/-- The same record with the low price null instead of `0` — it differs
from `c6B0` in exactly one of the 13 raw business-key fields. -/
def c6V0 : RawRecord := { sampleRec with id := some 22, lowPrice := none }

/-- Storage holding the row created from `c6B0`. -/
def c6CounterDB : DB :=
  match create emptyDB c6B0 with
  | .ok (d, _) => d
  | .error _ => emptyDB

/-- **C6 counterexample.** `c6V0` differs from the stored base `c6B0` in
exactly one of the 13 business-key fields (low price: null vs `0`), yet
reconciliation creates no new row: the stored `NULL` (from the falsy `0`)
matches the variant's `IS NULL` condition, the record resolves as an
update of the base row, and that update then dies on `float(None)` —
storage is left with the single base row and counters `(0, 0)`. -/
theorem c6_single_field_independence_counterexample :
    c6B0.lowPrice ≠ c6V0.lowPrice ∧
    c6CounterDB.rows.length = 1 ∧
    bulkCreateOrUpdate c6CounterDB [c6V0] = .ok (c6CounterDB, 0, 0) := by
  refine ⟨by decide, by rfl, by rfl⟩
/-- One step of the bulk loop for a record with truthy name and date and a
parseable date string: the loop continues on the `bulkResolve` result. -/
theorem bulkLoop_cons_step (existing : List (String × Row)) (r : RawRecord)
    (rest : List RawRecord) (db : DB) (processed : List (String × Nat))
    (c u : Nat) (s : String) (d : Dt)
    (ht : strTruthy r.prodName = true) (hdt : strTruthy r.pubDate = true)
    (hs : r.pubDate = some s) (hd : strptimeYmdHMS s = some d) :
    bulkLoop existing (r :: rest) db processed c u =
      bulkLoop existing rest
        (bulkResolve existing db processed c u r (buildKey r s)).1
        (bulkResolve existing db processed c u r (buildKey r s)).2.1
        (bulkResolve existing db processed c u r (buildKey r s)).2.2.1
        (bulkResolve existing db processed c u r (buildKey r s)).2.2.2 := by
  simp only [bulkLoop]
  rw [if_pos ⟨ht, hdt⟩, hs]
  dsimp only
  rw [hd]

/-- **C5 (amended).** In-batch collapse: a batch of exactly two records
that agree on all 13 business-key fields (place and spec_info compared
null-normalized, the publish timestamp as the same raw text) and whose
price fields are non-null is reconciled against empty storage as exactly
one created plus one updated — never two created — and stores a single
row: the first occurrence's row, with the second occurrence's field
values re-applied to it. -/
theorem c5_in_batch_collapse (r₁ r₂ : RawRecord)
    (hname : strTruthy r₁.prodName = true)
    (hdate : strTruthy r₁.pubDate = true)
    (hparse : (pubDateParsed r₁).isSome = true)
    (hagree : r₁.prodName = r₂.prodName ∧ r₁.prodCatid = r₂.prodCatid ∧
      r₁.prodCat = r₂.prodCat ∧ r₁.prodPcatid = r₂.prodPcatid ∧
      r₁.prodPcat = r₂.prodPcat ∧ r₁.lowPrice = r₂.lowPrice ∧
      r₁.highPrice = r₂.highPrice ∧ r₁.avgPrice = r₂.avgPrice ∧
      normStr r₁.place = normStr r₂.place ∧
      normStr r₁.specInfo = normStr r₂.specInfo ∧
      r₁.unitInfo = r₂.unitInfo ∧ r₁.pubDate = r₂.pubDate ∧
      r₁.status = r₂.status)
    (hlow : r₂.lowPrice.isSome = true) (hhigh : r₂.highPrice.isSome = true)
    (havg : r₂.avgPrice.isSome = true) :
    bulkCreateOrUpdate emptyDB [r₁, r₂] =
      .ok (⟨[updatedRow (newRowFor emptyDB r₁ (pubDateParsed r₁)) r₂
        (pubDateParsed r₂)], []⟩, 1, 1) := by
  obtain ⟨h1, h2, h3, h4, h5, h6, h7, h8, h9, h10, h11, h12, h13⟩ := hagree
  obtain ⟨s, hpub₁, _⟩ := strTruthy_some _ hdate
  have hpub₂ : r₂.pubDate = some s := by rw [← h12, hpub₁]
  have h₂n : strTruthy r₂.prodName = true := by rw [← h1]; exact hname
  have h₂d : strTruthy r₂.pubDate = true := by rw [← h12]; exact hdate
  cases hpd₁ : pubDateParsed r₁ with
  | none => rw [hpd₁] at hparse; simp at hparse
  | some d =>
      have hd : strptimeYmdHMS s = some d := by
        rw [pubDateParsed, hpub₁] at hpd₁
        exact hpd₁
      have hpd₂ : pubDateParsed r₂ = some d := by
        rw [pubDateParsed, hpub₂]
        exact hd
      have hk : buildKey r₂ s = buildKey r₁ s := by
        rw [buildKey, buildKey, h1, h2, h3, h4, h5, h6, h7, h8, h9, h10,
          h11, h13]
      have hbeq : (buildKey r₁ s == buildKey r₂ s) = true := by
        rw [hk]
        simp
      have hcc2 : collectConds [r₂] = .ok [(d, r₂)] := by
        rw [collectConds, if_pos ⟨h₂n, h₂d⟩, hpd₂]
        rfl
      have hcc : collectConds [r₁, r₂] = .ok [(d, r₁), (d, r₂)] := by
        rw [collectConds, if_pos ⟨hname, hdate⟩]
        rw [show pubDateParsed r₁ = some d from hpd₁, hcc2]
        rfl
      have hexb : existsBatchByUniqueKey emptyDB [r₁, r₂] = .ok [] := by
        rw [existsBatchByUniqueKey, hcc]
        dsimp only
        rw [if_neg (by simp)]
        rfl
      have hexv₁ : existsByUniqueKey emptyDB r₁ = .ok none := by
        rw [existsByUniqueKey_truthy _ _ hdate hparse]
        rfl
      have hcr := create_inserts emptyDB r₁ hname hdate hparse hexv₁
        (by intro row hrow; simp [emptyDB] at hrow)
      have hres₁ : bulkResolve [] emptyDB [] 0 0 r₁ (buildKey r₁ s) =
          (⟨[newRowFor emptyDB r₁ (pubDateParsed r₁)], []⟩,
            [(buildKey r₁ s, (newRowFor emptyDB r₁ (pubDateParsed r₁)).id)],
            1, 0) := by
        rw [bulkResolve]
        dsimp only [assocFind, List.find?, Option.map]
        rw [hcr]
        rfl
      have hfind : ([newRowFor emptyDB r₁ (pubDateParsed r₁)].find?
          (fun o => o.id == (newRowFor emptyDB r₁ (pubDateParsed r₁)).id)) =
          some (newRowFor emptyDB r₁ (pubDateParsed r₁)) := by
        simp [List.find?]
      obtain ⟨t, hpn₂, _⟩ := strTruthy_some _ h₂n
      have happly : applyUpdate (newRowFor emptyDB r₁ (pubDateParsed r₁)) r₂ =
          .ok (updatedRow (newRowFor emptyDB r₁ (pubDateParsed r₁)) r₂
            (some d)) := by
        rw [applyUpdate, if_pos ⟨hlow, hhigh, havg⟩, hpub₂]
        dsimp only
        rw [hd]
      have hupd : update ⟨[newRowFor emptyDB r₁ (pubDateParsed r₁)], []⟩
          (newRowFor emptyDB r₁ (pubDateParsed r₁)).id r₂ =
          .ok (⟨[updatedRow (newRowFor emptyDB r₁ (pubDateParsed r₁)) r₂
            (some d)], []⟩,
            some (updatedRow (newRowFor emptyDB r₁ (pubDateParsed r₁)) r₂
              (some d))) := by
        rw [update, hfind]
        dsimp only
        rw [happly]
        dsimp only
        rw [commitUpdate, if_neg (by simp [updatedRow, hpn₂])]
        rw [if_neg (by simp)]
        simp
      have haf : assocFind [(buildKey r₁ s,
          (newRowFor emptyDB r₁ (pubDateParsed r₁)).id)] (buildKey r₂ s) =
          some (newRowFor emptyDB r₁ (pubDateParsed r₁)).id := by
        simp [assocFind, List.find?, hbeq]
      have hres₂ : bulkResolve []
          (⟨[newRowFor emptyDB r₁ (pubDateParsed r₁)], []⟩ : DB)
          [(buildKey r₁ s, (newRowFor emptyDB r₁ (pubDateParsed r₁)).id)]
          1 0 r₂ (buildKey r₂ s) =
          (⟨[updatedRow (newRowFor emptyDB r₁ (pubDateParsed r₁)) r₂
            (some d)], []⟩,
            [(buildKey r₁ s, (newRowFor emptyDB r₁ (pubDateParsed r₁)).id)],
            1, 1) := by
        rw [bulkResolve, haf]
        dsimp only
        rw [hupd]
      rw [bulkCreateOrUpdate, if_neg (by simp), hexb]
      dsimp only
      rw [bulkLoop_cons_step [] r₁ [r₂] emptyDB [] 0 0 s d hname hdate
        hpub₁ hd]
      rw [hres₁]
      dsimp only
      rw [bulkLoop_cons_step [] r₂ []
        (⟨[newRowFor emptyDB r₁ (pubDateParsed r₁)], []⟩ : DB)
        [(buildKey r₁ s, (newRowFor emptyDB r₁ (pubDateParsed r₁)).id)]
        1 0 s d h₂n h₂d hpub₂ hd]
      rw [hres₂]
      dsimp only
      rw [bulkLoop, hpd₂, hpd₁]

/-- Two records identical on every upstream field except the primary-key
id, with a NULL low price: the claimed in-batch dedup pair of C5's failing
run. -/
def c5R1 : RawRecord := { sampleRec with id := some 31, lowPrice := none }

/-- The second occurrence of the same observation (fresh upstream id). -/
def c5R2 : RawRecord := { sampleRec with id := some 32, lowPrice := none }

/-- A second occurrence identical to `sampleRec` except for its upstream
id, used to instantiate the amended C5 theorem. -/
def c5W2 : RawRecord := { sampleRec with id := some 99 }

/-- **C5 counterexample.** `c5R1` and `c5R2` agree on all 13 business-key
fields (they differ only in upstream id) yet the batch `[c5R1, c5R2]`
against empty storage returns `(created, updated) = (1, 0)`, not the
claimed one create plus one update: the second occurrence's in-batch
update raises `TypeError` on `float(None)` and is skipped.  One row is
stored. -/
theorem c5_in_batch_collapse_counterexample :
    c5R1.prodName = c5R2.prodName ∧ c5R1.prodCatid = c5R2.prodCatid ∧
    c5R1.prodCat = c5R2.prodCat ∧ c5R1.prodPcatid = c5R2.prodPcatid ∧
    c5R1.prodPcat = c5R2.prodPcat ∧ c5R1.lowPrice = c5R2.lowPrice ∧
    c5R1.highPrice = c5R2.highPrice ∧ c5R1.avgPrice = c5R2.avgPrice ∧
    c5R1.place = c5R2.place ∧ c5R1.specInfo = c5R2.specInfo ∧
    c5R1.unitInfo = c5R2.unitInfo ∧ c5R1.pubDate = c5R2.pubDate ∧
    c5R1.status = c5R2.status ∧
    (bulkCreateOrUpdate emptyDB [c5R1, c5R2]).map
      (fun x => (x.1.rows.length, x.2.1, x.2.2)) = .ok (1, 1, 0) :=
  ⟨rfl, rfl, rfl, rfl, rfl, rfl, rfl, rfl, rfl, rfl, rfl, rfl, rfl, rfl⟩

/-- Closed instance of the amended C5 theorem: `sampleRec` followed by the
same observation under a fresh upstream id collapses to one create plus
one update of the single stored row. -/
theorem c5_in_batch_collapse_witness :
    bulkCreateOrUpdate emptyDB [sampleRec, c5W2] =
      .ok (⟨[updatedRow (newRowFor emptyDB sampleRec
        (pubDateParsed sampleRec)) c5W2 (pubDateParsed c5W2)], []⟩, 1, 1) :=
  c5_in_batch_collapse sampleRec c5W2 (by decide) (by decide) (by decide)
    ⟨rfl, rfl, rfl, rfl, rfl, rfl, rfl, rfl, rfl, rfl, rfl, rfl, rfl⟩
    (by decide) (by decide) (by decide)

/-- A zero datetime, used only as a `getD` default. -/
def dtZero : Dt := ⟨0, 0, 0, 0, 0, 0⟩

/-- The parsed publish date of a record (defaulting to `dtZero`). -/
def dOf (r : RawRecord) : Dt := (pubDateParsed r).getD dtZero

/-- The 13-field batch key of a record over its own raw date text. -/
def keyOf (r : RawRecord) : String := buildKey r (r.pubDate.getD "")

/-- The primary key the record's stored row receives when the record
carries an upstream id. -/
def idOf (r : RawRecord) : Nat := r.id.getD 0

/-- The row `create` builds for a record; independent of storage when the
record carries an upstream id. -/
def rowOf (r : RawRecord) : Row := newRowFor emptyDB r (pubDateParsed r)

/-- A fully-populated record: truthy name and timestamp, parseable
timestamp whose text is canonical (`strftime` of the parse gives it back),
upstream id present, place and spec non-null, and prices unchanged by the
store's truthiness coercion (non-null and non-zero). -/
def validRec (r : RawRecord) : Prop :=
  strTruthy r.prodName = true ∧ strTruthy r.pubDate = true ∧
  (pubDateParsed r).isSome = true ∧
  strftimeYmdHMS (dOf r) = r.pubDate.getD "" ∧
  r.id.isSome = true ∧ r.place.isSome = true ∧ r.specInfo.isSome = true ∧
  coercePrice r.lowPrice = r.lowPrice ∧ r.lowPrice.isSome = true ∧
  coercePrice r.highPrice = r.highPrice ∧ r.highPrice.isSome = true ∧
  coercePrice r.avgPrice = r.avgPrice ∧ r.avgPrice.isSome = true

/-- Helper: the date data a fully-populated record provides. -/
theorem valid_parts (r : RawRecord) (h : validRec r) :
    ∃ s d, r.pubDate = some s ∧ strptimeYmdHMS s = some d ∧
      strftimeYmdHMS d = s ∧ pubDateParsed r = some d ∧
      keyOf r = buildKey r s := by
  obtain ⟨h1, h2, h3, h4, h5, h6, h7, h8, h9, h10, h11, h12, h13⟩ := h
  obtain ⟨s, hpub, hs⟩ := strTruthy_some _ h2
  cases hpd : pubDateParsed r with
  | none => rw [hpd] at h3; simp at h3
  | some d =>
      have hd : strptimeYmdHMS s = some d := by
        rw [pubDateParsed, hpub] at hpd
        exact hpd
      refine ⟨s, d, hpub, hd, ?_, rfl, ?_⟩
      · rw [dOf, hpd, hpub] at h4
        exact h4
      · rw [keyOf, hpub]
        rfl

/-- Helper: the created row carries the upstream id. -/
theorem rowOf_id (r : RawRecord) (h : r.id.isSome = true) :
    (rowOf r).id = idOf r := by
  cases hi : r.id with
  | none => rw [hi] at h; simp at h
  | some i => simp [rowOf, newRowFor, idOf, hi]

/-- Helper: with an upstream id present, the inserted row does not depend
on the storage it is inserted into. -/
theorem newRowFor_irrel (db : DB) (r : RawRecord) (pd : Option Dt)
    (h : r.id.isSome = true) : newRowFor db r pd = newRowFor emptyDB r pd := by
  cases hi : r.id with
  | none => rw [hi] at h; simp at h
  | some i => simp [newRowFor, hi]

/-- Helper: a fully-populated record's own stored row satisfies the
13-condition `exists_by_unique_key` filter for that record. -/
theorem self_match (r : RawRecord) (h : validRec r) :
    matchesRecord (pubDateParsed r) r (rowOf r) = true := by
  obtain ⟨h1, h2, h3, h4, h5, h6, h7, h8, h9, h10, h11, h12, h13⟩ := h
  obtain ⟨p, hp⟩ := Option.isSome_iff_exists.mp h6
  obtain ⟨q, hq⟩ := Option.isSome_iff_exists.mp h7
  simp [matchesRecord, rowOf, newRowFor, h8, h10, h12, hp, hq, normStr]

/-- Helper: the stored row's re-rendered `dbKey` equals the record's batch
key (the canonical timestamp text makes `strftime` invert the parse). -/
theorem rowOf_key (r : RawRecord) (h : validRec r) :
    dbKey (rowOf r) = keyOf r := by
  obtain ⟨s, d, hpub, hd, hcanon, hpd, hkey⟩ := valid_parts r h
  obtain ⟨h1, h2, h3, h4, h5, h6, h7, h8, h9, h10, h11, h12, h13⟩ := h
  obtain ⟨p, hp⟩ := Option.isSome_iff_exists.mp h6
  obtain ⟨q, hq⟩ := Option.isSome_iff_exists.mp h7
  rw [hkey]
  simp [dbKey, rowOf, newRowFor, buildKey, h8, h10, h12, hp, hq, hpd,
    hcanon, normStr, fmtOptStr]

/-- Helper: any stored row matching a fully-populated record's filter has
that record's batch key. -/
theorem match_key (r : RawRecord) (row : Row) (h : validRec r)
    (hm : matchesRecord (pubDateParsed r) r row = true) :
    dbKey row = keyOf r := by
  obtain ⟨s, d, hpub, hd, hcanon, hpd, hkey⟩ := valid_parts r h
  rw [hpd] at hm
  simp only [matchesRecord, decide_eq_true_eq, beq_iff_eq] at hm
  obtain ⟨m1, m2, m3, m4, m5, m6, m7, m8, m9, m10, m11, m12, m13⟩ := hm
  rw [hkey, dbKey, buildKey, m1, m2, m3, m4, m5, m6, m7, m8, m9, m10, m11,
    m12, m13]
  simp [fmtOptStr, hcanon]

/-- Helper: re-applying a fully-populated record's mapped fields to its own
stored row is a no-op. -/
theorem updatedRow_noop (r : RawRecord) (h : validRec r) :
    updatedRow (rowOf r) r (pubDateParsed r) = rowOf r := by
  obtain ⟨h1, h2, h3, h4, h5, h6, h7, h8, h9, h10, h11, h12, h13⟩ := h
  obtain ⟨i, hi⟩ := Option.isSome_iff_exists.mp h5
  simp [updatedRow, rowOf, newRowFor, hi, h8, h10, h12]

/-- Helper: lookup misses an association list none of whose keys is `k`. -/
theorem assocFind_none {α : Type} (m : List (String × α)) (k : String)
    (h : ∀ p ∈ m, p.1 ≠ k) : assocFind m k = none := by
  rw [assocFind, List.find?_eq_none.mpr]
  · rfl
  · intro p hp
    simpa using h p hp

/-- Helper: the batch pre-check's condition pass over fully-populated
records keeps every record, paired with its parsed date. -/
theorem collectConds_valid (rs : List RawRecord)
    (hv : ∀ r ∈ rs, validRec r) :
    collectConds rs = .ok (rs.map fun r => (dOf r, r)) := by
  induction rs with
  | nil => rfl
  | cons r rest ih =>
      have h := hv r (List.mem_cons_self r rest)
      obtain ⟨s, d, hpub, hd, hcanon, hpd, hkey⟩ := valid_parts r h
      rw [collectConds, if_pos ⟨h.1, h.2.1⟩, hpd]
      dsimp only
      rw [ih (fun r' hr' => hv r' (List.mem_cons_of_mem _ hr'))]
      simp only [List.map_cons]
      rw [show dOf r = d from by rw [dOf, hpd]; rfl]
      rfl

/-- Helper: over fully-populated records with pairwise-distinct keys and
ids, against storage holding no row with any of their keys or ids and a
batch dict mentioning none of their keys, the loop creates every record. -/
theorem bulkLoop_creates (rs : List RawRecord) :
    ∀ (db : DB) (processed : List (String × Nat)) (c u : Nat),
      (∀ r ∈ rs, validRec r) →
      List.Pairwise (fun a b => keyOf a ≠ keyOf b) rs →
      List.Pairwise (fun a b => idOf a ≠ idOf b) rs →
      (∀ r ∈ rs, ∀ p ∈ processed, p.1 ≠ keyOf r) →
      (∀ r ∈ rs, ∀ row ∈ db.rows, dbKey row ≠ keyOf r) →
      (∀ r ∈ rs, ∀ row ∈ db.rows, row.id ≠ idOf r) →
      bulkLoop [] rs db processed c u =
        .ok ({ db with rows := db.rows ++ rs.map rowOf }, c + rs.length, u) := by
  induction rs with
  | nil =>
      intro db processed c u _ _ _ _ _ _
      simp [bulkLoop]
  | cons r rest ih =>
      intro db processed c u hv hkeys hids hproc hdbk hdbid
      have h := hv r (List.mem_cons_self r rest)
      obtain ⟨s, d, hpub, hd, hcanon, hpd, hkey⟩ := valid_parts r h
      have hname := h.1
      have hdate := h.2.1
      have hparse := h.2.2.1
      have hid := h.2.2.2.2.1
      have hexv : existsByUniqueKey db r = .ok none := by
        rw [existsByUniqueKey_truthy db r hdate hparse]
        rw [List.find?_eq_none.mpr (fun row hrow hm =>
          hdbk r (List.mem_cons_self r rest) row hrow (match_key r row h hm))]
      have hidnew : ∀ row ∈ db.rows,
          row.id ≠ (newRowFor db r (pubDateParsed r)).id := by
        intro row hrow
        rw [newRowFor_irrel db r (pubDateParsed r) hid]
        rw [show (newRowFor emptyDB r (pubDateParsed r)).id = idOf r from
          rowOf_id r hid]
        exact hdbid r (List.mem_cons_self r rest) row hrow
      have hcreate : create db r =
          .ok ({ db with rows := db.rows ++ [rowOf r] }, rowOf r) := by
        have hc := create_inserts db r hname hdate hparse hexv hidnew
        rw [newRowFor_irrel db r (pubDateParsed r) hid] at hc
        exact hc
      have hres : bulkResolve [] db processed c u r (buildKey r s) =
          ({ db with rows := db.rows ++ [rowOf r] },
            processed ++ [(buildKey r s, idOf r)], c + 1, u) := by
        rw [bulkResolve, assocFind_none processed (buildKey r s)
          (fun p hp => hkey ▸ hproc r (List.mem_cons_self r rest) p hp)]
        dsimp only [assocFind, List.find?, Option.map]
        rw [hcreate]
        dsimp only
        rw [rowOf_id r hid]
      rw [bulkLoop_cons_step [] r rest db processed c u s d hname hdate
        hpub hd]
      rw [hres]
      dsimp only
      have hstep := ih ({ db with rows := db.rows ++ [rowOf r] })
        (processed ++ [(buildKey r s, idOf r)]) (c + 1) u
        (fun r' hr' => hv r' (List.mem_cons_of_mem _ hr'))
        (List.pairwise_cons.mp hkeys).2
        (List.pairwise_cons.mp hids).2
        (by
          intro r' hr' p hp
          rcases List.mem_append.mp hp with hp | hp
          · exact hproc r' (List.mem_cons_of_mem _ hr') p hp
          · rw [List.mem_singleton.mp hp, ← hkey]
            exact (List.pairwise_cons.mp hkeys).1 r' hr')
        (by
          intro r' hr' row hrow
          rcases List.mem_append.mp hrow with hrow | hrow
          · exact hdbk r' (List.mem_cons_of_mem _ hr') row hrow
          · rw [List.mem_singleton.mp hrow, rowOf_key r h]
            exact (List.pairwise_cons.mp hkeys).1 r' hr')
        (by
          intro r' hr' row hrow
          rcases List.mem_append.mp hrow with hrow | hrow
          · exact hdbid r' (List.mem_cons_of_mem _ hr') row hrow
          · rw [List.mem_singleton.mp hrow, rowOf_id r hid]
            exact (List.pairwise_cons.mp hids).1 r' hr')
      rw [hstep, List.append_assoc, Nat.add_assoc, Nat.add_comm 1 rest.length]
      rfl

/-- Helper: the first call over empty storage creates every record and
updates none. -/
theorem bulk_first (rs : List RawRecord) (hne : rs ≠ [])
    (hv : ∀ r ∈ rs, validRec r)
    (hkeys : List.Pairwise (fun a b => keyOf a ≠ keyOf b) rs)
    (hids : List.Pairwise (fun a b => idOf a ≠ idOf b) rs) :
    bulkCreateOrUpdate emptyDB rs = .ok (⟨rs.map rowOf, []⟩, rs.length, 0) := by
  rw [bulkCreateOrUpdate, if_neg (by simpa using hne)]
  have hexb : existsBatchByUniqueKey emptyDB rs = .ok [] := by
    rw [existsBatchByUniqueKey, collectConds_valid rs hv]
    dsimp only
    by_cases hc : (rs.map fun r => (dOf r, r)).isEmpty
    · rw [if_pos hc]
    · rw [if_neg hc]
      rfl
  rw [hexb]
  dsimp only
  have hloop := bulkLoop_creates rs emptyDB [] 0 0 hv hkeys hids
    (by intro r hr p hp; simp at hp)
    (by intro r hr row hrow; simp [emptyDB] at hrow)
    (by intro r hr row hrow; simp [emptyDB] at hrow)
  rw [hloop, Nat.zero_add]
  rfl

/-- Helper: a function pairwise-distinct on a list is injective on its
members. -/
theorem pairwise_mem_inj {α β : Type} (f : α → β) (rs : List α)
    (hpw : List.Pairwise (fun a b => f a ≠ f b) rs) :
    ∀ r ∈ rs, ∀ r' ∈ rs, f r = f r' → r = r' := by
  induction rs with
  | nil =>
      intro r hr
      simp at hr
  | cons a t ih =>
      intro r hr r' hr' hf
      rcases List.mem_cons.mp hr with h₁ | h₁
      · rcases List.mem_cons.mp hr' with h₂ | h₂
        · rw [h₁, h₂]
        · rw [h₁] at hf
          exact absurd hf ((List.pairwise_cons.mp hpw).1 r' h₂)
      · rcases List.mem_cons.mp hr' with h₂ | h₂
        · rw [h₂] at hf
          exact absurd hf.symm ((List.pairwise_cons.mp hpw).1 r h₁)
        · exact ih (List.pairwise_cons.mp hpw).2 r h₁ r' h₂ hf

/-- Helper: the `existing_records` dict built from the stored rows of a
key-distinct batch answers every member's key with its row. -/
theorem assocFind_map_keyOf (rs : List RawRecord)
    (hkeys : List.Pairwise (fun a b => keyOf a ≠ keyOf b) rs) :
    ∀ r ∈ rs, assocFind (rs.map fun r' => (keyOf r', rowOf r')) (keyOf r) =
      some (rowOf r) := by
  induction rs with
  | nil =>
      intro r hr
      simp at hr
  | cons a t ih =>
      intro r hr
      rcases List.mem_cons.mp hr with rfl | hr
      · rw [List.map_cons, assocFind, List.find?_cons_of_pos _ (by simp)]
        rfl
      · rw [List.map_cons, assocFind, List.find?_cons_of_neg _ (by
          simpa using (List.pairwise_cons.mp hkeys).1 r hr)]
        exact ih (List.pairwise_cons.mp hkeys).2 r hr

/-- Helper: the primary-key lookup over the stored rows of an id-distinct
batch finds every member's row. -/
theorem find_rowOf_id (rs : List RawRecord)
    (hv : ∀ r ∈ rs, validRec r)
    (hids : List.Pairwise (fun a b => idOf a ≠ idOf b) rs) :
    ∀ r ∈ rs,
      (rs.map rowOf).find? (fun o => o.id == idOf r) = some (rowOf r) := by
  induction rs with
  | nil =>
      intro r hr
      simp at hr
  | cons a t ih =>
      intro r hr
      rcases List.mem_cons.mp hr with rfl | hr
      · rw [List.map_cons, List.find?_cons_of_pos _ (by
          simp [rowOf_id r (hv r (List.mem_cons_self r t)).2.2.2.2.1])]
      · rw [List.map_cons, List.find?_cons_of_neg _ (by
          have ha := rowOf_id a (hv a (List.mem_cons_self a t)).2.2.2.2.1
          simpa [ha] using (List.pairwise_cons.mp hids).1 r hr)]
        exact ih (fun r' hr' => hv r' (List.mem_cons_of_mem _ hr'))
          (List.pairwise_cons.mp hids).2 r hr

/-- Helper: inserting key-distinct rows into an association list that
mentions none of their keys appends them in order. -/
theorem foldl_assocInsert (rows : List Row) :
    ∀ (m : List (String × Row)),
      (∀ row ∈ rows, ∀ p ∈ m, p.1 ≠ dbKey row) →
      List.Pairwise (fun a b => dbKey a ≠ dbKey b) rows →
      rows.foldl (fun m row => assocInsert m (dbKey row) row) m =
        m ++ rows.map (fun row => (dbKey row, row)) := by
  induction rows with
  | nil =>
      intro m _ _
      simp
  | cons a t ih =>
      intro m hm hpw
      rw [List.foldl_cons]
      have hins : assocInsert m (dbKey a) a = m ++ [(dbKey a, a)] := by
        rw [assocInsert, if_neg (by
          simp only [List.any_eq_true, beq_iff_eq, not_exists, not_and]
          intro p hp
          exact hm a (List.mem_cons_self a t) p hp)]
      rw [hins]
      rw [ih (m ++ [(dbKey a, a)]) (by
          intro row hrow p hp
          rcases List.mem_append.mp hp with hp | hp
          · exact hm row (List.mem_cons_of_mem _ hrow) p hp
          · rw [List.mem_singleton.mp hp]
            exact (List.pairwise_cons.mp hpw).1 row hrow)
        (List.pairwise_cons.mp hpw).2]
      rw [List.append_assoc]
      rfl

/-- Helper: the batch pre-check against the storage produced by the first
call returns exactly the key-to-row dict of the batch. -/
theorem existsBatch_full (rs : List RawRecord)
    (hv : ∀ r ∈ rs, validRec r)
    (hkeys : List.Pairwise (fun a b => keyOf a ≠ keyOf b) rs) :
    existsBatchMap ⟨rs.map rowOf, []⟩ (rs.map fun r => (dOf r, r)) =
      rs.map (fun r => (keyOf r, rowOf r)) := by
  rw [existsBatchMap]
  have hfilter : (rs.map rowOf).filter (fun row =>
      (rs.map fun r => (dOf r, r)).any fun c =>
        matchesRecord (some c.1) c.2 row) = rs.map rowOf := by
    rw [List.filter_eq_self.mpr]
    intro row hrow
    obtain ⟨r', hr', rfl⟩ := List.mem_map.mp hrow
    rw [List.any_eq_true]
    refine ⟨(dOf r', r'), List.mem_map_of_mem _ hr', ?_⟩
    have hpd' : pubDateParsed r' = some (dOf r') := by
      cases hx : pubDateParsed r' with
      | none =>
          have h3 := (hv r' hr').2.2.1
          rw [hx] at h3
          simp at h3
      | some dd =>
          rw [dOf, hx]
          rfl
    rw [show ((dOf r', r') : Dt × RawRecord).1 = dOf r' from rfl,
      show ((dOf r', r') : Dt × RawRecord).2 = r' from rfl, ← hpd']
    exact self_match r' (hv r' hr')
  rw [hfilter]
  rw [foldl_assocInsert (rs.map rowOf) [] (by simp)
    (List.pairwise_map.mpr (hkeys.imp_of_mem (fun ha hb hk => by
      rw [rowOf_key _ (hv _ ha), rowOf_key _ (hv _ hb)]
      exact hk)))]
  rw [List.nil_append, List.map_map]
  apply List.map_congr_left
  intro r' hr'
  simp only [Function.comp_apply]
  rw [rowOf_key r' (hv r' hr')]

/-- Helper: over fully-populated, key-distinct records whose rows are all
already stored (served by the `existing_records` dict and findable by
primary key, with no foreign row sharing a key), the loop resolves every
record as a no-op update and leaves storage unchanged. -/
theorem bulkLoop_updates (rs : List RawRecord) :
    ∀ (existing : List (String × Row)) (db : DB)
      (processed : List (String × Nat)) (c u : Nat),
      (∀ r ∈ rs, validRec r) →
      List.Pairwise (fun a b => keyOf a ≠ keyOf b) rs →
      (∀ r ∈ rs, assocFind existing (keyOf r) = some (rowOf r)) →
      (∀ r ∈ rs, ∀ p ∈ processed, p.1 ≠ keyOf r) →
      (∀ r ∈ rs, db.rows.find? (fun o => o.id == idOf r) = some (rowOf r)) →
      (∀ r ∈ rs, ∀ o ∈ db.rows, o.id = idOf r → o = rowOf r) →
      (∀ r ∈ rs, ∀ o ∈ db.rows, o.id ≠ idOf r → dbKey o ≠ keyOf r) →
      bulkLoop existing rs db processed c u = .ok (db, c, u + rs.length) := by
  induction rs with
  | nil =>
      intro existing db processed c u _ _ _ _ _ _ _
      simp [bulkLoop]
  | cons r rest ih =>
      intro existing db processed c u hv hkeys hex hproc hfind hall hother
      have h := hv r (List.mem_cons_self r rest)
      obtain ⟨s, d, hpub, hd, hcanon, hpd, hkey⟩ := valid_parts r h
      have hname := h.1
      have hdate := h.2.1
      have hid := h.2.2.2.2.1
      have h9 := h.2.2.2.2.2.2.2.2.1
      have h11 := h.2.2.2.2.2.2.2.2.2.2.1
      have h13 := h.2.2.2.2.2.2.2.2.2.2.2.2
      have happ : applyUpdate (rowOf r) r = .ok (rowOf r) := by
        rw [applyUpdate, if_pos ⟨h9, h11, h13⟩, hpub]
        dsimp only
        rw [hd]
        dsimp only
        rw [show updatedRow (rowOf r) r (some d) = rowOf r from by
          rw [← hpd]
          exact updatedRow_noop r h]
      have hprodname : ¬(rowOf r).prod_name = none := by
        obtain ⟨t, hpn, -⟩ := strTruthy_some _ hname
        simp [rowOf, newRowFor, hpn]
      have hcommit : commitUpdate db (idOf r) (rowOf r) = .ok db := by
        rw [commitUpdate, if_neg hprodname]
        rw [if_neg (by
          simp only [List.any_eq_true, decide_eq_true_eq, Bool.or_eq_true,
            beq_iff_eq]
          rintro ⟨o, ho, hne, hor⟩
          rcases hor with heq | hconf
          · exact hne (by rw [heq, rowOf_id r hid])
          · exact hother r (List.mem_cons_self r rest) o ho hne
              (match_key r o h
                (conflict_matches emptyDB r (pubDateParsed r) o hconf)))]
        rw [show db.rows.map
            (fun o => if o.id == idOf r then rowOf r else o) = db.rows from by
          calc db.rows.map (fun o => if o.id == idOf r then rowOf r else o) =
              db.rows.map id := List.map_congr_left (fun o ho => by
                by_cases hio : o.id = idOf r
                · rw [if_pos (by simpa using hio)]
                  exact (hall r (List.mem_cons_self r rest) o ho hio).symm
                · rw [if_neg (by simpa using hio)]
                  rfl)
            _ = db.rows := List.map_id _]
      have hupdate : update db (idOf r) r = .ok (db, some (rowOf r)) := by
        rw [update, hfind r (List.mem_cons_self r rest)]
        dsimp only
        rw [happ]
        dsimp only
        rw [hcommit]
      have hres : bulkResolve existing db processed c u r (buildKey r s) =
          (db, processed ++ [(buildKey r s, idOf r)], c, u + 1) := by
        rw [bulkResolve, assocFind_none processed (buildKey r s)
          (fun p hp => hkey ▸ hproc r (List.mem_cons_self r rest) p hp)]
        dsimp only
        rw [show assocFind existing (buildKey r s) = some (rowOf r) from
          hkey ▸ hex r (List.mem_cons_self r rest)]
        dsimp only
        rw [rowOf_id r hid, hupdate]
      rw [bulkLoop_cons_step existing r rest db processed c u s d hname hdate
        hpub hd]
      rw [hres]
      dsimp only
      have hstep := ih existing db (processed ++ [(buildKey r s, idOf r)])
        c (u + 1)
        (fun r' hr' => hv r' (List.mem_cons_of_mem _ hr'))
        (List.pairwise_cons.mp hkeys).2
        (fun r' hr' => hex r' (List.mem_cons_of_mem _ hr'))
        (by
          intro r' hr' p hp
          rcases List.mem_append.mp hp with hp | hp
          · exact hproc r' (List.mem_cons_of_mem _ hr') p hp
          · rw [List.mem_singleton.mp hp, ← hkey]
            exact (List.pairwise_cons.mp hkeys).1 r' hr')
        (fun r' hr' => hfind r' (List.mem_cons_of_mem _ hr'))
        (fun r' hr' => hall r' (List.mem_cons_of_mem _ hr'))
        (fun r' hr' => hother r' (List.mem_cons_of_mem _ hr'))
      rw [hstep, Nat.add_assoc, Nat.add_comm 1 rest.length]
      rfl

/-- Helper: the second call over the storage produced by the first creates
nothing and resolves every record as an update. -/
theorem bulk_second (rs : List RawRecord) (hne : rs ≠ [])
    (hv : ∀ r ∈ rs, validRec r)
    (hkeys : List.Pairwise (fun a b => keyOf a ≠ keyOf b) rs)
    (hids : List.Pairwise (fun a b => idOf a ≠ idOf b) rs) :
    bulkCreateOrUpdate ⟨rs.map rowOf, []⟩ rs =
      .ok (⟨rs.map rowOf, []⟩, 0, rs.length) := by
  rw [bulkCreateOrUpdate, if_neg (by simpa using hne)]
  have hexb : existsBatchByUniqueKey ⟨rs.map rowOf, []⟩ rs =
      .ok (rs.map fun r => (keyOf r, rowOf r)) := by
    rw [existsBatchByUniqueKey, collectConds_valid rs hv]
    dsimp only
    rw [if_neg (by simp [List.isEmpty_iff, hne])]
    rw [existsBatch_full rs hv hkeys]
  rw [hexb]
  dsimp only
  have hloop := bulkLoop_updates rs (rs.map fun r => (keyOf r, rowOf r))
    ⟨rs.map rowOf, []⟩ [] 0 0 hv hkeys
    (assocFind_map_keyOf rs hkeys)
    (by intro r hr p hp; simp at hp)
    (find_rowOf_id rs hv hids)
    (by
      intro r hr o ho hio
      obtain ⟨r', hr', rfl⟩ := List.mem_map.mp ho
      have hidr : idOf r' = idOf r := by
        rw [← rowOf_id r' (hv r' hr').2.2.2.2.1]
        exact hio
      rw [pairwise_mem_inj idOf rs hids r' hr' r hr hidr])
    (by
      intro r hr o ho hio hkeyeq
      obtain ⟨r', hr', rfl⟩ := List.mem_map.mp ho
      rw [rowOf_key r' (hv r' hr')] at hkeyeq
      have heq := pairwise_mem_inj keyOf rs hkeys r' hr' r hr hkeyeq
      exact hio (by rw [heq, rowOf_id r (hv r hr).2.2.2.2.1]))
  rw [hloop, Nat.zero_add]

/-- The C1 failing input: a record with a product name and a publish
timestamp but no upstream id and a NULL place. -/
def c1Rec : RawRecord := { sampleRec with id := none, place := none }

/-- The storage produced by the first reconciliation of `[c1Rec]`. -/
def c1DB : DB := ⟨[newRowFor emptyDB c1Rec (pubDateParsed c1Rec)], []⟩

/-- **C1 (amended).** Batch-level idempotence holds for fully-populated
batches: records with truthy product name, a parseable publish timestamp
in canonical text form, an upstream id, non-null place and spec_info, and
non-null non-zero prices, pairwise distinct in their 13-field keys and in
their ids.  Against empty storage the first call creates every record
(`created_count = |batch| > 0`, no updates) and the second call on the
identical batch creates nothing, resolving every record as an update of
the stored rows, which it leaves unchanged. -/
theorem c1_batch_idempotent (rs : List RawRecord) (hne : rs ≠ [])
    (hv : ∀ r ∈ rs, validRec r)
    (hkeys : List.Pairwise (fun a b => keyOf a ≠ keyOf b) rs)
    (hids : List.Pairwise (fun a b => idOf a ≠ idOf b) rs) :
    0 < rs.length ∧
    bulkCreateOrUpdate emptyDB rs = .ok (⟨rs.map rowOf, []⟩, rs.length, 0) ∧
    bulkCreateOrUpdate ⟨rs.map rowOf, []⟩ rs =
      .ok (⟨rs.map rowOf, []⟩, 0, rs.length) :=
  ⟨List.length_pos.mpr hne, bulk_first rs hne hv hkeys hids,
    bulk_second rs hne hv hkeys hids⟩

/-- Closed instance of the amended C1 theorem on the one-record batch
`[sampleRec]`. -/
theorem c1_batch_idempotent_witness :
    0 < ([sampleRec] : List RawRecord).length ∧
    bulkCreateOrUpdate emptyDB [sampleRec] =
      .ok (⟨[sampleRec].map rowOf, []⟩, 1, 0) ∧
    bulkCreateOrUpdate ⟨[sampleRec].map rowOf, []⟩ [sampleRec] =
      .ok (⟨[sampleRec].map rowOf, []⟩, 0, 1) :=
  c1_batch_idempotent [sampleRec] (by simp)
    (by
      intro r hr
      rw [List.mem_singleton.mp hr]
      unfold validRec
      decide)
    (by simp) (by simp)

/-- **C1 counterexample.** `c1Rec` has a product name and a publish
timestamp, yet running the one-record batch twice creates the record both
times: the second call's dedup probes compare the stored NULL place
against the empty string and miss, so storage ends with two rows and the
second call's `created_count` is 1, not 0. -/
theorem c1_batch_idempotent_counterexample :
    strTruthy c1Rec.prodName = true ∧ strTruthy c1Rec.pubDate = true ∧
    bulkCreateOrUpdate emptyDB [c1Rec] = .ok (c1DB, 1, 0) ∧
    (bulkCreateOrUpdate c1DB [c1Rec]).map
      (fun x => (x.1.rows.length, x.2.1, x.2.2)) = .ok (2, 1, 0) :=
  ⟨rfl, rfl, rfl, rfl⟩
